import Mathlib

/-!
Shallow embedding of the LLM routing subsystem of the agentic-platform
repository, and proofs checking the specification's claims against it.

Embedded sources:
 - src/unnamed/part_004 (services/llm/router.ts): `LLMRouter` — provider
   configuration, admission state (active-request counters and per-provider
   rate-limit timestamp windows), provider selection, invoke, stream,
   status snapshot.
 - src/unnamed/part_005 (services/llm/providers.ts): `LLMProvider.getCost`
   and the chunk-emission structure of `OpenAIProvider.stream` and
   `AnthropicProvider.stream`.

Modelling conventions:
 - JS numbers used as integers (timestamps in ms, counters, priorities,
   limits) are modelled as `Int`; `Date.now()` is passed in explicitly as a
   `now : Int` parameter.  JS `x || d` on numbers (`0` is falsy) is `jsOr`.
 - Cost rates are JS floating-point numbers; they are modelled exactly over
   `ℚ` (all concrete rate/token values in the repository are exactly
   representable and the claimed identities hold exactly).
 - JS `Map` objects (string-keyed, insertion-ordered, `set` replacing in
   place) are modelled as association lists with `mapGet` / `mapSet`.
 - `Array.prototype.sort` with comparator `(a, b) => key a - key b` is a
   stable ascending sort by `key`; it is modelled by the stable insertion
   sort `sortByKey`.
 - `try { A } finally { B }` is desugared per ECMA-262: `B` runs after `A`
   completes normally, throws (synchronously or via an awaited rejection),
   or — for the async generator `LLMRouter.stream` — after the consumer
   ends the generator early; the external adapter call outcome is an
   explicit `AdapterOutcome` / `StreamConsumption` parameter.
 - Provider stream transports are modelled as the sequence of reads the
   `reader.read()` loop observes, each read pre-classified line by line
   according to the branch the source takes on it (the `data: ` prefix
   test, the `[DONE]` test, and the result of `JSON.parse`); this is the
   `Transport` type.
-/

/-- JS `x || d` for numbers `x`: `0` is falsy and yields the default.
Used by the source in `selectProvider`'s sort comparator
(`config?.priority || 999`, part_004 line 427) and for
`activeRequests.get(name) || 0` (where it coincides with `Option.getD 0`). -/
def jsOr (x d : Int) : Int := if x = 0 then d else x

/-- Lookup in a string-keyed association list (JS `Map.get`). -/
def mapGet {α : Type} (k : String) : List (String × α) → Option α
  | [] => none
  | (k1, v) :: rest => if k1 = k then some v else mapGet k rest

/-- Update in a string-keyed association list (JS `Map.set`): replaces the
value in place if the key is present, appends at the end otherwise. -/
def mapSet {α : Type} (k : String) (v : α) : List (String × α) → List (String × α)
  | [] => [(k, v)]
  | (k1, v1) :: rest => if k1 = k then (k, v) :: rest else (k1, v1) :: mapSet k v rest

/-- String membership in a list (JS `Map.has` over the providers map). -/
def strMem (n : String) : List String → Bool
  | [] => false
  | m :: rest => if m = n then true else strMem n rest

/-- Key insertion for the providers map when only key order matters
(JS `Map.set` keeps the original position of an existing key). -/
def insertName (n : String) (l : List String) : List String :=
  if strMem n l then l else l ++ [n]

/-- Stable insertion step for `sortByKey`: an element goes after all
strictly smaller keys and before equal or larger keys, so elements that
occur earlier in the original list stay before later equal-key elements. -/
def insertByKey {α : Type} (key : α → Int) (x : α) : List α → List α
  | [] => [x]
  | y :: ys => if key y < key x then y :: insertByKey key x ys else x :: y :: ys

/-- Stable ascending sort by an integer key, modelling
`Array.prototype.sort((a, b) => key a - key b)`. -/
def sortByKey {α : Type} (key : α → Int) : List α → List α
  | [] => []
  | x :: xs => insertByKey key x (sortByKey key xs)

/-- `ProviderConfig` (part_004 lines 310-317).  The `apiKey` credential is
only forwarded to adapter constructors and never read by the router logic,
so it is omitted. -/
structure ProviderConfig where
  name : String
  enabled : Bool
  priority : Int
  maxConcurrent : Int
  rateLimitPerMinute : Int
deriving DecidableEq, Repr

/-- One chat message (part_005 lines 3-13); the structured content parts
are never inspected by the router, so content is kept as plain text. -/
structure LLMMessage where
  role : String
  content : String
deriving DecidableEq, Repr

/-- `LLMRequest` (part_005 lines 15-30).  The router never reads any field
of the request (selection, admission and bookkeeping ignore it entirely);
only the fields the claims quantify over are kept. -/
structure LLMRequest where
  messages : List LLMMessage
  model : String
deriving DecidableEq, Repr

/-- `StreamChunk` (part_005 lines 50-58): a tagged variant.  The source's
`end` tag is spelled `endChunk` (`end` is reserved in Lean).  The optional
`usage` payload of `end` and the `error` message string (`String(error)`)
are never inspected by any claim and are omitted. -/
inductive StreamChunk where
  | start
  | content (text : String)
  | endChunk
  | error
deriving DecidableEq, Repr

/-- The mutable state of `LLMRouter` (part_004 lines 320-323):
the providers map (tracked by key: which names have a live adapter, in
insertion order), the priority-sorted config list, and the two admission
maps `activeRequests` and `rateLimitTracker`. -/
structure RouterState where
  providers : List String
  providerConfigs : List ProviderConfig
  activeRequests : List (String × Int)
  rateLimitTracker : List (String × List Int)
deriving DecidableEq, Repr

/-- The `switch (config.name)` of `initializeProviders` (part_004 lines
342-354): only these three names construct an adapter; the `default`
branch skips the config. -/
def knownProviderName (n : String) : Bool :=
  if n = "openai" then true
  else if n = "anthropic" then true
  else if n = "google" then true
  else false

/-- One iteration of the `initializeProviders` loop (part_004 lines
334-361): disabled configs and unrecognized names are skipped; otherwise
the adapter is stored and the admission entries are initialized to `0`
and `[]`. -/
def initStep (s : RouterState) (config : ProviderConfig) : RouterState :=
  if config.enabled = false then s
  else if knownProviderName config.name = false then s
  else
    { s with
      providers := insertName config.name s.providers
      activeRequests := mapSet config.name 0 s.activeRequests
      rateLimitTracker := mapSet config.name [] s.rateLimitTracker }

/-- The `LLMRouter` constructor (part_004 lines 325-328): sorts the configs
by ascending priority (stable) and runs `initializeProviders`. -/
def mkRouter (configs : List ProviderConfig) : RouterState :=
  let sorted := sortByKey (fun c => c.priority) configs
  List.foldl initStep
    { providers := [], providerConfigs := sorted, activeRequests := [], rateLimitTracker := [] }
    sorted

/-- `providerConfigs.find(c => c.name === name)` (part_004 lines 425-426,
444, 476). -/
def findConfigNamed (name : String) : List ProviderConfig → Option ProviderConfig
  | [] => none
  | c :: rest => if c.name = name then some c else findConfigNamed name rest

/-- `trackRequest` (part_004 lines 496-504): push the current instant onto
the provider's window, then prune the window to the trailing 60 seconds.
The source calls `Date.now()` twice within the same synchronous method;
both calls are the same instant `now` here. -/
def trackRequest (s : RouterState) (now : Int) (name : String) : RouterState :=
  let tracker := (mapGet name s.rateLimitTracker).getD []
  let pushed := tracker ++ [now]
  let oneMinuteAgo := now - 60000
  let filtered := pushed.filter (fun t => oneMinuteAgo < t)
  { s with rateLimitTracker := mapSet name filtered s.rateLimitTracker }

/-- `checkRateLimit` (part_004 lines 475-491): no config means fail; count
the timestamps strictly within the trailing 60-second window; at or above
`rateLimitPerMinute` fail without mutating; otherwise record the current
instant (`trackRequest`) and pass. -/
def checkRateLimit (s : RouterState) (now : Int) (name : String) : Bool × RouterState :=
  match findConfigNamed name s.providerConfigs with
  | none => (false, s)
  | some config =>
    let oneMinuteAgo := now - 60000
    let tracker := (mapGet name s.rateLimitTracker).getD []
    let recentRequests := tracker.filter (fun t => oneMinuteAgo < t)
    if (recentRequests.length : Int) ≥ config.rateLimitPerMinute then (false, s)
    else (true, trackRequest s now name)

/-- `isProviderAvailable` (part_004 lines 463-470): an initialized provider
entry exists (the health-check stub then returns `true` unconditionally). -/
def isProviderAvailable (s : RouterState) (name : String) : Bool :=
  strMem name s.providers

/-- The sort key of `selectProvider`'s comparator (part_004 lines 424-428):
`providerConfigs.find(c => c.name === name)?.priority || 999`.  A missing
config and a priority of `0` (falsy) both give `999`. -/
def selKey (s : RouterState) (n : String) : Int :=
  match findConfigNamed n s.providerConfigs with
  | some c => jsOr c.priority 999
  | none => 999

/-- The order in which `selectProvider` examines providers: the entries of
the providers map, stably sorted by `selKey` (part_004 lines 424-428). -/
def selectionOrder (s : RouterState) : List String :=
  sortByKey (selKey s) s.providers

/-- The candidate loop of `selectProvider` (part_004 lines 430-457): skip
if unavailable; skip (rate check first, with its recording side effect) if
rate limited; skip if the config exists and the active count has reached
`maxConcurrent`; otherwise return this provider with the state as mutated
so far. -/
def selectLoop (now : Int) : RouterState → List String → Option String × RouterState
  | s, [] => (none, s)
  | s, name :: rest =>
    if isProviderAvailable s name = true then
      let rl := checkRateLimit s now name
      if rl.1 = true then
        match findConfigNamed name rl.2.providerConfigs with
        | some config =>
          if (mapGet name rl.2.activeRequests).getD 0 ≥ config.maxConcurrent then
            selectLoop now rl.2 rest
          else (some name, rl.2)
        | none => (some name, rl.2)
      else selectLoop now rl.2 rest
    else selectLoop now s rest

/-- `selectProvider` (part_004 lines 423-458).  The request argument is
received and ignored, as in the source. -/
def selectProvider (s : RouterState) (_req : LLMRequest) (now : Int) :
    Option String × RouterState :=
  selectLoop now s (selectionOrder s)

/-- `incrementActiveRequests` (part_004 lines 529-532). -/
def incrementActiveRequests (s : RouterState) (name : String) : RouterState :=
  let current := (mapGet name s.activeRequests).getD 0
  { s with activeRequests := mapSet name (current + 1) s.activeRequests }

/-- `decrementActiveRequests` (part_004 lines 537-540): `Math.max(0, n-1)`,
clamped at zero. -/
def decrementActiveRequests (s : RouterState) (name : String) : RouterState :=
  let current := (mapGet name s.activeRequests).getD 0
  { s with activeRequests := mapSet name (max 0 (current - 1)) s.activeRequests }

/-- Outcome of one external adapter `invoke` call, as observed by the
router: the awaited promise resolves, the call throws synchronously, or
the awaited promise rejects.  (The adapter performs network I/O and never
touches router state.) -/
inductive AdapterOutcome where
  | success
  | syncThrow
  | asyncReject
deriving DecidableEq, Repr

/-- What `LLMRouter.invoke` ends with, as seen by the caller. -/
inductive InvokeResult where
  | success
  | adapterError
  | noProvider
deriving DecidableEq, Repr

/-- Result record for a run of `LLMRouter.invoke`: the caller-visible
outcome, the router state afterwards, and which adapters were invoked. -/
structure InvokeRun where
  result : InvokeResult
  state : RouterState
  invoked : List String
deriving DecidableEq, Repr

/-- `LLMRouter.invoke` (part_004 lines 367-392).  If selection fails, the
`No available LLM providers` error is thrown and no adapter is invoked.
Otherwise the selected provider's counter is incremented inside the `try`
block, the adapter is invoked exactly once, and the `finally` block
decrements the counter on every completion of the `try` block — normal
return, synchronous throw, or awaited rejection (`trackCost` only logs and
touches no router state). -/
def invoke (s : RouterState) (req : LLMRequest) (now : Int)
    (adapter : String → AdapterOutcome) : InvokeRun :=
  match selectProvider s req now with
  | (none, s1) => { result := InvokeResult.noProvider, state := s1, invoked := [] }
  | (some name, s1) =>
    let s2 := incrementActiveRequests s1 name
    let s3 := decrementActiveRequests s2 name
    match adapter name with
    | AdapterOutcome.success =>
        { result := InvokeResult.success, state := s3, invoked := [name] }
    | AdapterOutcome.syncThrow =>
        { result := InvokeResult.adapterError, state := s3, invoked := [name] }
    | AdapterOutcome.asyncReject =>
        { result := InvokeResult.adapterError, state := s3, invoked := [name] }

/-- How the consumption of one `LLMRouter.stream` call ends: the provider
stream is drained to completion, the consumer stops consuming after `k`
chunks (ending the generator, which still runs the `finally` block), or
the provider stream throws after `k` chunks. -/
inductive StreamConsumption where
  | toCompletion
  | cancelledAfter (k : Nat)
  | failsAfterChunks (k : Nat)
deriving DecidableEq, Repr

/-- Result record for a run of `LLMRouter.stream`: outcome, router state
afterwards, adapters invoked, and the chunks the consumer received. -/
structure StreamRunOut where
  result : InvokeResult
  state : RouterState
  invoked : List String
  delivered : List StreamChunk
deriving DecidableEq, Repr

/-- `LLMRouter.stream` (part_004 lines 397-418).  If selection fails, the
`No available LLM providers` error is thrown before any increment and no
adapter is invoked.  Otherwise the counter is incremented before the
`try`, the provider stream's chunks are re-yielded, and the `finally`
block decrements the counter whether the loop completes, the provider
stream throws mid-iteration, or the consumer ends the generator early. -/
def streamRun (s : RouterState) (req : LLMRequest) (now : Int)
    (chunks : List StreamChunk) (how : StreamConsumption) : StreamRunOut :=
  match selectProvider s req now with
  | (none, s1) =>
      { result := InvokeResult.noProvider, state := s1, invoked := [], delivered := [] }
  | (some name, s1) =>
    let s2 := incrementActiveRequests s1 name
    let s3 := decrementActiveRequests s2 name
    match how with
    | StreamConsumption.toCompletion =>
        { result := InvokeResult.success, state := s3, invoked := [name], delivered := chunks }
    | StreamConsumption.cancelledAfter k =>
        { result := InvokeResult.success, state := s3, invoked := [name],
          delivered := chunks.take k }
    | StreamConsumption.failsAfterChunks k =>
        { result := InvokeResult.adapterError, state := s3, invoked := [name],
          delivered := chunks.take k }

/-- One status entry of `getStatus` (part_004 lines 555-569). -/
structure ProviderStatus where
  name : String
  active : Int
  available : Bool
deriving DecidableEq, Repr

/-- `getStatus` (part_004 lines 555-569): one entry per entry of the
providers map, with the current active count (`get(name) || 0`, which
coincides with defaulting to `0`) and `available` hard-coded to `true`.
The method only reads state. -/
def getStatus (s : RouterState) : List ProviderStatus :=
  s.providers.map (fun name =>
    { name := name
      active := (mapGet name s.activeRequests).getD 0
      available := true })

/-- Runs `checkRateLimit` once per instant in the given list, threading the
state, and collects the results (used to state the sequential rate-limit
property). -/
def checkSeq (s : RouterState) (name : String) : List Int → List Bool × RouterState
  | [] => ([], s)
  | t :: ts =>
    let r := checkRateLimit s t name
    let rest := checkSeq r.2 name ts
    (r.1 :: rest.1, rest.2)

/-- Analysis view: the provider's timestamp window pruned to the trailing
60-second window at instant `now` (the `recentRequests` value computed
inside `checkRateLimit`). -/
def recentOf (s : RouterState) (now : Int) (name : String) : List Int :=
  ((mapGet name s.rateLimitTracker).getD []).filter (fun t => now - 60000 < t)

/-- Analysis view: the pure outcome of the rate-limit check of part_004
lines 475-491, without its recording side effect. -/
def rateOK (s : RouterState) (now : Int) (name : String) : Bool :=
  match findConfigNamed name s.providerConfigs with
  | none => false
  | some config =>
    if ((recentOf s now name).length : Int) ≥ config.rateLimitPerMinute then false else true

/-- Analysis view: the pure outcome of the concurrency-capacity check of
part_004 lines 443-452 (a missing config does not skip the provider). -/
def capacityOK (s : RouterState) (name : String) : Bool :=
  match findConfigNamed name s.providerConfigs with
  | none => true
  | some config =>
    if (mapGet name s.activeRequests).getD 0 ≥ config.maxConcurrent then false else true

/-- Analysis view: a provider passes all three admission checks of the
selection loop on the given state. -/
def passesChecks (s : RouterState) (now : Int) (name : String) : Bool :=
  isProviderAvailable s name && rateOK s now name && capacityOK s name

/-- The prefix of a candidate list that the selection loop actually
examines: everything up to and including the first passing provider, or
the whole list when none passes. -/
def examinedNames (s : RouterState) (now : Int) : List String → List String
  | [] => []
  | n :: rest =>
    if passesChecks s now n = true then [n] else n :: examinedNames s now rest

/-- Configs that `initializeProviders` instantiates an adapter for:
enabled, with a name the `switch` recognizes. -/
def goodCfg (c : ProviderConfig) : Bool :=
  c.enabled && knownProviderName c.name

/-- Modelled from the spec's words for the selection claim: backends in
ascending priority order, ties broken by original configuration order
(stable sort), restricted to enabled backends. -/
def specSelectionOrder (configs : List ProviderConfig) : List String :=
  ((sortByKey (fun c => c.priority) configs).filter (fun c => c.enabled)).map (fun c => c.name)

/-- The `activeCount ≥ 0` state invariant of the spec, per backend name. -/
def routerNonneg (s : RouterState) : Prop :=
  ∀ name, 0 ≤ (mapGet name s.activeRequests).getD 0

/-- `costPer1kTokens` of `LLMProvider` (part_005 line 67), over exact
rationals. -/
structure CostRates where
  input : ℚ
  output : ℚ
deriving DecidableEq, Repr

/-- `LLMProvider.getCost` (part_005 lines 85-91). -/
def getCost (costPer1kTokens : CostRates) (inputTokens outputTokens : ℚ) : ℚ :=
  inputTokens / 1000 * costPer1kTokens.input + outputTokens / 1000 * costPer1kTokens.output

/-- The rate table fixed by the `OpenAIProvider` constructor
(part_005 lines 96-104): input 0.01, output 0.03 per 1k tokens. -/
def openAICostPer1k : CostRates := { input := 1 / 100, output := 3 / 100 }

/-- The rate table fixed by the `AnthropicProvider` constructor
(part_005 lines 235-242): input 0.015, output 0.075 per 1k tokens. -/
def anthropicCostPer1k : CostRates := { input := 15 / 1000, output := 75 / 1000 }

/-- The rate table fixed by the `GoogleGeminiProvider` constructor
(part_005 lines 379-386): input 0.0005, output 0.0015 per 1k tokens. -/
def googleCostPer1k : CostRates := { input := 5 / 10000, output := 15 / 10000 }

/-- How the setup phase of a provider `stream` call ends, before the first
chunk can be emitted: success, a non-success HTTP status (`!response.ok`
throws), a missing response body (throws), or `fetch` itself rejecting.
Every non-success case is a throw that reaches the outer `catch`. -/
inductive SetupResult where
  | ok
  | httpError
  | noBody
  | fetchFail
deriving DecidableEq, Repr

/-- A transport as observed by the `reader.read()` loop: a sequence of
reads (each already split into classified lines), after which the stream
either reports `done` or the next `read()` rejects. -/
inductive Transport (L : Type) where
  | ends (reads : List (List L))
  | failsAfter (reads : List (List L))
deriving DecidableEq, Repr

/-- One line of an OpenAI streaming read, classified by the branch
`OpenAIProvider.stream` takes on it (part_005 lines 193-213): not
prefixed by `data: ` (skipped); `data: [DONE]` (yield `end`, return);
`data: ` JSON carrying `choices[0].delta.content` (yield `content`);
`data: ` JSON without usable content or failing to parse (skipped). -/
inductive OAILine where
  | notData
  | dataDone
  | dataContent (text : String)
  | dataOther
deriving DecidableEq, Repr

/-- Chunks emitted while processing the lines of one OpenAI read, and
whether a `[DONE]` line terminated the generator (part_005 lines
193-214). -/
def oaiLines : List OAILine → List StreamChunk × Bool
  | [] => ([], false)
  | OAILine.notData :: rest => oaiLines rest
  | OAILine.dataOther :: rest => oaiLines rest
  | OAILine.dataDone :: _ => ([StreamChunk.endChunk], true)
  | OAILine.dataContent text :: rest =>
    let r := oaiLines rest
    (StreamChunk.content text :: r.1, r.2)

/-- Chunks emitted by the OpenAI read loop over a sequence of reads,
stopping at a `[DONE]` line (part_005 lines 185-218). -/
def oaiReads : List (List OAILine) → List StreamChunk × Bool
  | [] => ([], false)
  | r :: rs =>
    let a := oaiLines r
    if a.2 then a
    else
      let b := oaiReads rs
      (a.1 ++ b.1, b.2)

/-- The full chunk sequence `OpenAIProvider.stream` emits (part_005 lines
157-223).  Setup failure throws before `start` and the outer `catch`
yields a single `error` chunk.  After `start`, a read rejection reaches
the outer `catch` (yielding a terminal `error`) unless a `[DONE]` line
already returned; a transport that reports `done` without `[DONE]` falls
out of the loop and the generator ends with no further chunk. -/
def openAIStream (setup : SetupResult) (tr : Transport OAILine) : List StreamChunk :=
  match setup with
  | SetupResult.ok =>
    match tr with
    | Transport.ends reads => StreamChunk.start :: (oaiReads reads).1
    | Transport.failsAfter reads =>
      let a := oaiReads reads
      if a.2 then StreamChunk.start :: a.1
      else StreamChunk.start :: a.1 ++ [StreamChunk.error]
  | _ => [StreamChunk.error]

/-- One line of an Anthropic streaming read, classified by the branch
`AnthropicProvider.stream` takes on it (part_005 lines 339-358): not
prefixed by `data: ` (skipped); a `content_block_delta` event (yield
`content`); a `message_stop` event (yield `end` — the loop does not
return); any other or unparsable payload (skipped). -/
inductive AnthLine where
  | notData
  | dataContentDelta (text : String)
  | dataMessageStop
  | dataOther
deriving DecidableEq, Repr

/-- Chunks emitted while processing the lines of one Anthropic read
(part_005 lines 339-358). -/
def anthLines : List AnthLine → List StreamChunk
  | [] => []
  | AnthLine.notData :: rest => anthLines rest
  | AnthLine.dataOther :: rest => anthLines rest
  | AnthLine.dataContentDelta text :: rest => StreamChunk.content text :: anthLines rest
  | AnthLine.dataMessageStop :: rest => StreamChunk.endChunk :: anthLines rest

/-- Chunks emitted by the Anthropic read loop over a sequence of reads
(part_005 lines 331-359); nothing terminates the loop early. -/
def anthReads (reads : List (List AnthLine)) : List StreamChunk :=
  (reads.map anthLines).flatten

/-- The full chunk sequence `AnthropicProvider.stream` emits (part_005
lines 299-367).  Setup failure yields a single `error` chunk; a read
rejection after `start` reaches the outer `catch` and yields a terminal
`error`; a transport that reports `done` ends the generator with no
further chunk. -/
def anthropicStream (setup : SetupResult) (tr : Transport AnthLine) : List StreamChunk :=
  match setup with
  | SetupResult.ok =>
    match tr with
    | Transport.ends reads => StreamChunk.start :: anthReads reads
    | Transport.failsAfter reads => StreamChunk.start :: anthReads reads ++ [StreamChunk.error]
  | _ => [StreamChunk.error]

/-- Chunk classification: `content` chunks. -/
def isContentChunk : StreamChunk → Bool
  | StreamChunk.content _ => true
  | _ => false

/-- Chunk classification: terminal chunks (`end` or `error`). -/
def isTerminalChunk : StreamChunk → Bool
  | StreamChunk.endChunk => true
  | StreamChunk.error => true
  | _ => false

/-- Helper for `specWellFormedStream`: zero or more `content` chunks
followed by exactly one terminal chunk. -/
def wfStreamBody : List StreamChunk → Bool
  | [] => false
  | [c] => isTerminalChunk c
  | c :: rest => isContentChunk c && wfStreamBody rest

/-- Modelled from the spec's words: a complete stream is exactly one
`start`, then zero or more `content`, terminated by exactly one of `end`
or `error` — never both, never neither, never more than one terminal. -/
def specWellFormedStream : List StreamChunk → Bool
  | StreamChunk.start :: rest => wfStreamBody rest
  | _ => false

/-! ### Concrete fixtures used by counterexamples and witnesses -/

/-- A concrete request; the router never reads any of its fields. -/
def sampleRequest : LLMRequest := { messages := [], model := "gpt-4-turbo" }

/-- The deployment's openai backend config (part_003 lines 55-62). -/
def openAICfg : ProviderConfig :=
  { name := "openai", enabled := true, priority := 1, maxConcurrent := 10,
    rateLimitPerMinute := 60 }

/-- The deployment's anthropic backend config (part_003 lines 63-70). -/
def anthropicCfg : ProviderConfig :=
  { name := "anthropic", enabled := true, priority := 2, maxConcurrent := 10,
    rateLimitPerMinute := 60 }

/-- An openai config whose priority is the (falsy) number 0. -/
def zeroPriorityOpenAICfg : ProviderConfig :=
  { name := "openai", enabled := true, priority := 0, maxConcurrent := 10,
    rateLimitPerMinute := 60 }

/-- An anthropic config that is disabled at construction. -/
def disabledAnthropicCfg : ProviderConfig :=
  { name := "anthropic", enabled := false, priority := 2, maxConcurrent := 10,
    rateLimitPerMinute := 60 }

/-- An openai config with a zero per-minute rate limit. -/
def zeroRateCfg : ProviderConfig :=
  { name := "openai", enabled := true, priority := 1, maxConcurrent := 10,
    rateLimitPerMinute := 0 }

/-- An openai config with a per-minute rate limit of 2. -/
def rateCfg2 : ProviderConfig :=
  { name := "openai", enabled := true, priority := 1, maxConcurrent := 10,
    rateLimitPerMinute := 2 }

/-- An adapter assignment where the openai adapter call rejects and every
other adapter succeeds. -/
def failingAdapter : String → AdapterOutcome :=
  fun n => if n = "openai" then AdapterOutcome.asyncReject else AdapterOutcome.success

/-- A router over openai and anthropic in which openai is at its
concurrency ceiling (10 active requests). -/
def routerOpenAIAtCapacity : RouterState :=
  { mkRouter [openAICfg, anthropicCfg] with activeRequests := [("openai", 10)] }

/-- A router over one openai backend (limit 2/minute) whose rate window
already holds the instants 0 and 30000: at instant 30000 the window is at
capacity, and at instant 61000 the oldest entry is more than 60 seconds
old while the newer one is still within the window. -/
def routerWindowAtCapacity : RouterState :=
  { mkRouter [rateCfg2] with rateLimitTracker := [("openai", [0, 30000])] }

/-- A router state with no backends and empty admission maps. -/
def emptyRouter : RouterState :=
  { providers := [], providerConfigs := [], activeRequests := [], rateLimitTracker := [] }

/-! ### Basic lemmas about the map and sort primitives -/

lemma mapGet_set_self {α : Type} (k : String) (v : α) :
    ∀ m : List (String × α), mapGet k (mapSet k v m) = some v := by
  intro m
  induction m with
  | nil => simp [mapGet, mapSet]
  | cons p rest ih =>
    by_cases h : p.1 = k
    · simp [mapGet, mapSet, h]
    · simp only [mapSet]
      rw [if_neg (by exact h)]
      simp [mapGet, h, ih]

lemma mapGet_set_ne {α : Type} (k k1 : String) (v : α) (h : k1 ≠ k) :
    ∀ m : List (String × α), mapGet k1 (mapSet k v m) = mapGet k1 m := by
  intro m
  induction m with
  | nil => simp [mapGet, mapSet, Ne.symm h]
  | cons p rest ih =>
    by_cases hp : p.1 = k
    · have hp1 : ¬ p.1 = k1 := by
        intro hc
        exact h (hc ▸ hp)
      simp [mapGet, mapSet, hp, hp1, Ne.symm h]
    · simp only [mapSet]
      rw [if_neg hp]
      by_cases hp1 : p.1 = k1
      · simp [mapGet, hp1]
      · simp [mapGet, hp1, ih]

lemma mapGet_mem {α : Type} (k : String) (v : α) :
    ∀ {m : List (String × α)}, mapGet k m = some v → (k, v) ∈ m := by
  intro m
  induction m with
  | nil => simp [mapGet]
  | cons p rest ih =>
    rcases p with ⟨a, b⟩
    intro h
    by_cases hp : a = k
    · simp only [mapGet, if_pos hp] at h
      injection h with hbv
      subst hbv
      subst hp
      exact List.mem_cons_self _ _
    · simp only [mapGet, if_neg hp] at h
      exact List.mem_cons_of_mem _ (ih h)

lemma mapSet_mem_val {α : Type} (k : String) (v : α) :
    ∀ {m : List (String × α)} {p : String × α},
      p ∈ mapSet k v m → p.2 = v ∨ p ∈ m := by
  intro m
  induction m with
  | nil => intro p hp; simp [mapSet] at hp; left; rw [hp]
  | cons q rest ih =>
    intro p hp
    by_cases hq : q.1 = k
    · simp only [mapSet, if_pos hq, List.mem_cons] at hp
      rcases hp with hp | hp
      · left; rw [hp]
      · right; exact List.mem_cons_of_mem _ hp
    · simp only [mapSet, if_neg hq, List.mem_cons] at hp
      rcases hp with hp | hp
      · right; rw [hp]; exact List.mem_cons_self _ _
      · rcases ih hp with h | h
        · left; exact h
        · right; exact List.mem_cons_of_mem _ h

lemma strMem_iff (n : String) : ∀ l : List String, strMem n l = true ↔ n ∈ l := by
  intro l
  induction l with
  | nil => simp [strMem]
  | cons m rest ih =>
    by_cases h : m = n
    · simp [strMem, h]
    · simp [strMem, h, ih, Ne.symm h]

lemma strMem_false_iff (n : String) (l : List String) : strMem n l = false ↔ n ∉ l := by
  rw [← strMem_iff n l]
  cases h : strMem n l <;> simp

lemma strMem_append (n : String) :
    ∀ l1 l2 : List String, strMem n (l1 ++ l2) = (strMem n l1 || strMem n l2) := by
  intro l1 l2
  induction l1 with
  | nil => simp [strMem]
  | cons m rest ih =>
    by_cases h : m = n
    · simp [strMem, h]
    · simp [strMem, h, ih]

lemma insertName_of_not_mem (n : String) (l : List String) (h : strMem n l = false) :
    insertName n l = l ++ [n] := by
  simp [insertName, h]

lemma findConfigNamed_mem {n : String} :
    ∀ {l : List ProviderConfig} {c : ProviderConfig},
      findConfigNamed n l = some c → c ∈ l ∧ c.name = n := by
  intro l
  induction l with
  | nil => simp [findConfigNamed]
  | cons d rest ih =>
    intro c h
    by_cases hd : d.name = n
    · simp only [findConfigNamed, if_pos hd] at h
      cases h
      exact ⟨List.mem_cons_self _ _, hd⟩
    · simp only [findConfigNamed, if_neg hd] at h
      obtain ⟨hm, hn⟩ := ih h
      exact ⟨List.mem_cons_of_mem _ hm, hn⟩

lemma findConfigNamed_of_nodup :
    ∀ {l : List ProviderConfig} {c : ProviderConfig},
      (l.map (fun c => c.name)).Nodup → c ∈ l → findConfigNamed c.name l = some c := by
  intro l
  induction l with
  | nil => simp
  | cons d rest ih =>
    intro c hnd hm
    simp only [List.map_cons, List.nodup_cons] at hnd
    obtain ⟨hd, hrest⟩ := hnd
    rcases List.mem_cons.mp hm with h | h
    · cases h
      simp [findConfigNamed]
    · have hne : d.name ≠ c.name := by
        intro hc
        exact hd (hc ▸ List.mem_map_of_mem (fun c => c.name) h)
      simp only [findConfigNamed, if_neg hne]
      exact ih hrest h

/-! ### Lemmas about the stable sort -/

lemma insertByKey_perm {α : Type} (key : α → Int) (x : α) :
    ∀ l : List α, (insertByKey key x l).Perm (x :: l) := by
  intro l
  induction l with
  | nil => simp [insertByKey]
  | cons y ys ih =>
    simp only [insertByKey]
    by_cases h : key y < key x
    · rw [if_pos h]
      exact (ih.cons y).trans (List.Perm.swap x y ys)
    · rw [if_neg h]

lemma sortByKey_perm {α : Type} (key : α → Int) :
    ∀ l : List α, (sortByKey key l).Perm l := by
  intro l
  induction l with
  | nil => simp [sortByKey]
  | cons x xs ih =>
    simp only [sortByKey]
    exact (insertByKey_perm key x (sortByKey key xs)).trans (ih.cons x)

lemma insertByKey_of_le {α : Type} (key : α → Int) (x : α) :
    ∀ l : List α, (∀ y ∈ l, ¬ key y < key x) → insertByKey key x l = x :: l := by
  intro l h
  cases l with
  | nil => simp [insertByKey]
  | cons y ys =>
    simp only [insertByKey]
    rw [if_neg (h y (List.mem_cons_self _ _))]

lemma sortByKey_of_pairwise {α : Type} (key : α → Int) :
    ∀ l : List α, l.Pairwise (fun a b => key a ≤ key b) → sortByKey key l = l := by
  intro l
  induction l with
  | nil => simp [sortByKey]
  | cons x xs ih =>
    intro h
    obtain ⟨hx, hxs⟩ := List.pairwise_cons.mp h
    simp only [sortByKey]
    rw [ih hxs]
    exact insertByKey_of_le key x xs (fun y hy => not_lt.mpr (hx y hy))

lemma insertByKey_pairwise {α : Type} (key : α → Int) (x : α) :
    ∀ l : List α, l.Pairwise (fun a b => key a ≤ key b) →
      (insertByKey key x l).Pairwise (fun a b => key a ≤ key b) := by
  intro l
  induction l with
  | nil => simp [insertByKey]
  | cons y ys ih =>
    intro h
    obtain ⟨hy, hys⟩ := List.pairwise_cons.mp h
    simp only [insertByKey]
    by_cases hk : key y < key x
    · rw [if_pos hk]
      refine List.pairwise_cons.mpr ⟨?_, ih hys⟩
      intro z hz
      have hz2 : z = x ∨ z ∈ ys := by
        have := (insertByKey_perm key x ys).mem_iff.mp hz
        simpa using this
      rcases hz2 with h | h
      · rw [h]; exact le_of_lt hk
      · exact hy z h
    · rw [if_neg hk]
      refine List.pairwise_cons.mpr ⟨?_, h⟩
      intro z hz
      have hxy : key x ≤ key y := not_lt.mp hk
      rcases List.mem_cons.mp hz with h | h
      · rw [h]; exact hxy
      · exact le_trans hxy (hy z h)

lemma sortByKey_pairwise {α : Type} (key : α → Int) :
    ∀ l : List α, (sortByKey key l).Pairwise (fun a b => key a ≤ key b) := by
  intro l
  induction l with
  | nil => simp [sortByKey]
  | cons x xs ih =>
    simp only [sortByKey]
    exact insertByKey_pairwise key x _ ih

/-! ### Frame and characterization lemmas for the admission operations -/

lemma trackRequest_providers (s : RouterState) (now : Int) (name : String) :
    (trackRequest s now name).providers = s.providers := rfl

lemma trackRequest_providerConfigs (s : RouterState) (now : Int) (name : String) :
    (trackRequest s now name).providerConfigs = s.providerConfigs := rfl

lemma trackRequest_activeRequests (s : RouterState) (now : Int) (name : String) :
    (trackRequest s now name).activeRequests = s.activeRequests := rfl

lemma trackRequest_tracker_self (s : RouterState) (now : Int) (name : String) :
    mapGet name (trackRequest s now name).rateLimitTracker
      = some (recentOf s now name ++ [now]) := by
  simp only [trackRequest, recentOf, mapGet_set_self, List.filter_append]
  congr 1
  simp only [List.filter_cons, List.filter_nil, decide_eq_true_eq]
  rw [if_pos (by omega)]

lemma trackRequest_tracker_ne (s : RouterState) (now : Int) (name n : String) (h : n ≠ name) :
    mapGet n (trackRequest s now name).rateLimitTracker = mapGet n s.rateLimitTracker := by
  simp only [trackRequest]
  exact mapGet_set_ne name n _ h _

lemma checkRateLimit_eq (s : RouterState) (now : Int) (name : String) :
    checkRateLimit s now name =
      (rateOK s now name, if rateOK s now name = true then trackRequest s now name else s) := by
  unfold checkRateLimit rateOK recentOf
  cases hc : findConfigNamed name s.providerConfigs with
  | none => simp
  | some config =>
    by_cases h :
        (((((mapGet name s.rateLimitTracker).getD []).filter
          (fun t => now - 60000 < t)).length : Int) ≥ config.rateLimitPerMinute)
    · simp [h]
    · simp [h]

lemma recentOf_track_ne (s : RouterState) (now0 now : Int) (name n : String) (h : n ≠ name) :
    recentOf (trackRequest s now0 name) now n = recentOf s now n := by
  unfold recentOf
  rw [trackRequest_tracker_ne s now0 name n h]

lemma rateOK_track_ne (s : RouterState) (now0 now : Int) (name n : String) (h : n ≠ name) :
    rateOK (trackRequest s now0 name) now n = rateOK s now n := by
  unfold rateOK
  simp only [trackRequest_providerConfigs, recentOf_track_ne s now0 now name n h]

lemma passesChecks_track_ne (s : RouterState) (now0 now : Int) (name n : String)
    (h : n ≠ name) :
    passesChecks (trackRequest s now0 name) now n = passesChecks s now n := by
  unfold passesChecks
  rw [rateOK_track_ne s now0 now name n h]
  rfl

lemma rateOK_true_config {s : RouterState} {now : Int} {name : String}
    (h : rateOK s now name = true) :
    ∃ config, findConfigNamed name s.providerConfigs = some config := by
  unfold rateOK at h
  cases hc : findConfigNamed name s.providerConfigs with
  | none => rw [hc] at h; cases h
  | some c => exact ⟨c, rfl⟩

lemma capacityOK_false_iff {s : RouterState} {name : String} {config : ProviderConfig}
    (hc : findConfigNamed name s.providerConfigs = some config) :
    capacityOK s name = false ↔
      (mapGet name s.activeRequests).getD 0 ≥ config.maxConcurrent := by
  unfold capacityOK
  rw [hc]
  by_cases h : (mapGet name s.activeRequests).getD 0 ≥ config.maxConcurrent <;> simp [h]

lemma passesChecks_true_iff (s : RouterState) (now : Int) (name : String) :
    passesChecks s now name = true ↔
      (isProviderAvailable s name = true ∧ rateOK s now name = true ∧
        capacityOK s name = true) := by
  simp [passesChecks, Bool.and_eq_true, and_assoc]

lemma list_find_congr {α : Type} (f g : α → Bool) :
    ∀ l : List α, (∀ a ∈ l, f a = g a) → l.find? f = l.find? g := by
  intro l
  induction l with
  | nil => simp
  | cons a rest ih =>
    intro h
    have ha := h a (List.mem_cons_self _ _)
    by_cases hf : f a = true
    · have hg : g a = true := by rw [← ha]; exact hf
      rw [List.find?_cons_of_pos _ hf, List.find?_cons_of_pos _ hg]
    · have hg : ¬ g a = true := by rw [← ha]; exact hf
      rw [List.find?_cons_of_neg _ hf, List.find?_cons_of_neg _ hg]
      exact ih (fun b hb => h b (List.mem_cons_of_mem _ hb))

lemma examined_congr (s1 s2 : RouterState) (now : Int) :
    ∀ names : List String,
      (∀ n ∈ names, passesChecks s1 now n = passesChecks s2 now n) →
      examinedNames s1 now names = examinedNames s2 now names := by
  intro names
  induction names with
  | nil => simp [examinedNames]
  | cons n rest ih =>
    intro h
    have hn := h n (List.mem_cons_self _ _)
    unfold examinedNames
    rw [hn]
    by_cases hp : passesChecks s2 now n = true
    · simp [hp]
    · simp only [if_neg hp, List.cons.injEq, true_and]
      exact ih (fun m hm => h m (List.mem_cons_of_mem _ hm))

lemma examined_of_find_none (s : RouterState) (now : Int) :
    ∀ names : List String,
      names.find? (fun n => passesChecks s now n) = none →
      examinedNames s now names = names := by
  intro names
  induction names with
  | nil => simp [examinedNames]
  | cons n rest ih =>
    intro h
    cases hp : passesChecks s now n with
    | true =>
      rw [List.find?_cons_of_pos _ hp] at h
      exact absurd h (by simp)
    | false =>
      rw [List.find?_cons_of_neg _ (by simp [hp])] at h
      unfold examinedNames
      rw [hp]
      simp [ih h]

lemma find_some_of_mem_examined (s : RouterState) (now : Int) :
    ∀ names : List String, ∀ n ∈ examinedNames s now names,
      passesChecks s now n = true →
      names.find? (fun m => passesChecks s now m) = some n := by
  intro names
  induction names with
  | nil => simp [examinedNames]
  | cons m rest ih =>
    intro n hn hp
    by_cases hm : passesChecks s now m = true
    · unfold examinedNames at hn
      rw [if_pos hm] at hn
      simp at hn
      subst hn
      exact List.find?_cons_of_pos _ hm
    · unfold examinedNames at hn
      rw [if_neg hm] at hn
      rcases List.mem_cons.mp hn with h | h
      · subst h; exact absurd hp hm
      · rw [List.find?_cons_of_neg _ hm]
        exact ih n h hp

/-! ### Branch equations and the master characterization of the selection loop -/

lemma isProviderAvailable_track (s : RouterState) (now : Int) (name n : String) :
    isProviderAvailable (trackRequest s now name) n = isProviderAvailable s n := rfl

lemma selectLoop_cons_unavail {s : RouterState} {name : String} (now : Int)
    (rest : List String) (h : isProviderAvailable s name = false) :
    selectLoop now s (name :: rest) = selectLoop now s rest := by
  conv_lhs => unfold selectLoop
  rw [h]
  simp

lemma selectLoop_cons_rateFail {s : RouterState} {now : Int} {name : String}
    (rest : List String) (hav : isProviderAvailable s name = true)
    (hr : rateOK s now name = false) :
    selectLoop now s (name :: rest) = selectLoop now s rest := by
  conv_lhs => unfold selectLoop
  rw [hav, checkRateLimit_eq, hr]
  simp

lemma selectLoop_cons_capFail {s : RouterState} {now : Int} {name : String}
    {config : ProviderConfig} (rest : List String)
    (hav : isProviderAvailable s name = true) (hr : rateOK s now name = true)
    (hc : findConfigNamed name s.providerConfigs = some config)
    (hcap : (mapGet name s.activeRequests).getD 0 ≥ config.maxConcurrent) :
    selectLoop now s (name :: rest) = selectLoop now (trackRequest s now name) rest := by
  conv_lhs => unfold selectLoop
  rw [hav, checkRateLimit_eq, hr]
  simp [trackRequest_activeRequests, trackRequest_providerConfigs, hc, hcap]

lemma selectLoop_cons_selected {s : RouterState} {now : Int} {name : String}
    {config : ProviderConfig} (rest : List String)
    (hav : isProviderAvailable s name = true) (hr : rateOK s now name = true)
    (hc : findConfigNamed name s.providerConfigs = some config)
    (hcap : ¬ ((mapGet name s.activeRequests).getD 0 ≥ config.maxConcurrent)) :
    selectLoop now s (name :: rest) = (some name, trackRequest s now name) := by
  conv_lhs => unfold selectLoop
  rw [hav, checkRateLimit_eq, hr]
  simp [trackRequest_activeRequests, trackRequest_providerConfigs, hc, hcap]

lemma mem_of_mem_examined (s : RouterState) (now : Int) :
    ∀ names : List String, ∀ n ∈ examinedNames s now names, n ∈ names := by
  intro names
  induction names with
  | nil => simp [examinedNames]
  | cons m rest ih =>
    intro n hn
    unfold examinedNames at hn
    by_cases hm : passesChecks s now m = true
    · rw [if_pos hm] at hn
      simp at hn
      simp [hn]
    · rw [if_neg hm] at hn
      rcases List.mem_cons.mp hn with h | h
      · simp [h]
      · exact List.mem_cons_of_mem _ (ih n h)

lemma selectLoop_spec (now : Int) :
    ∀ (names : List String) (s : RouterState), names.Nodup →
      (selectLoop now s names).1 = names.find? (fun n => passesChecks s now n)
      ∧ (selectLoop now s names).2.providers = s.providers
      ∧ (selectLoop now s names).2.providerConfigs = s.providerConfigs
      ∧ (selectLoop now s names).2.activeRequests = s.activeRequests
      ∧ (∀ m, m ∉ names →
          mapGet m (selectLoop now s names).2.rateLimitTracker = mapGet m s.rateLimitTracker)
      ∧ (∀ n ∈ examinedNames s now names,
          mapGet n (selectLoop now s names).2.rateLimitTracker =
            if (isProviderAvailable s n && rateOK s now n) = true
            then some (recentOf s now n ++ [now])
            else mapGet n s.rateLimitTracker) := by
  intro names
  induction names with
  | nil =>
    intro s _
    refine ⟨rfl, rfl, rfl, rfl, fun m _ => rfl, fun n hn => ?_⟩
    simp [examinedNames] at hn
  | cons name rest ih =>
    intro s hnodup
    obtain ⟨hnm, hnd⟩ := List.nodup_cons.mp hnodup
    by_cases hav : isProviderAvailable s name = true
    · by_cases hr : rateOK s now name = true
      · obtain ⟨config, hc⟩ := rateOK_true_config hr
        set s1 := trackRequest s now name with hs1
        have hcong : ∀ m ∈ rest, passesChecks s1 now m = passesChecks s now m := by
          intro m hm
          exact passesChecks_track_ne s now now name m (fun he => hnm (he ▸ hm))
        by_cases hcap : (mapGet name s.activeRequests).getD 0 ≥ config.maxConcurrent
        · have heq := selectLoop_cons_capFail rest hav hr hc hcap
          have hcapf : capacityOK s name = false := (capacityOK_false_iff hc).mpr hcap
          have hpass : passesChecks s now name = false := by
            simp [passesChecks, hcapf]
          obtain ⟨ih1, ih2, ih3, ih4, ih5, ih6⟩ := ih s1 hnd
          have hexn : examinedNames s now (name :: rest)
              = name :: examinedNames s now rest := by
            conv_lhs => unfold examinedNames
            rw [if_neg (by simp [hpass])]
          refine ⟨?_, ?_, ?_, ?_, ?_, ?_⟩
          · rw [heq, ih1, List.find?_cons_of_neg _ (by simp [hpass])]
            exact list_find_congr _ _ rest hcong
          · rw [heq, ih2]; rfl
          · rw [heq, ih3]; rfl
          · rw [heq, ih4]; rfl
          · intro m hm
            have hm1 : m ∉ rest := fun hc2 => hm (List.mem_cons_of_mem _ hc2)
            have hm2 : m ≠ name := fun hc2 => hm (hc2 ▸ List.mem_cons_self _ _)
            rw [heq, ih5 m hm1, hs1, trackRequest_tracker_ne s now name m hm2]
          · intro n hn
            rw [hexn] at hn
            rcases List.mem_cons.mp hn with h | h
            · subst h
              have hgd : (isProviderAvailable s n && rateOK s now n) = true := by
                simp [hav, hr]
              rw [heq, if_pos hgd, ih5 n hnm, hs1]
              exact trackRequest_tracker_self s now n
            · have hnr : n ∈ rest := mem_of_mem_examined s now rest n h
              have hne : n ≠ name := fun he => hnm (he ▸ hnr)
              have hexeq : examinedNames s1 now rest = examinedNames s now rest :=
                examined_congr s1 s now rest hcong
              have hex1 : n ∈ examinedNames s1 now rest := by rw [hexeq]; exact h
              have hval := ih6 n hex1
              rw [heq, hval, hs1, rateOK_track_ne s now now name n hne,
                recentOf_track_ne s now now name n hne,
                trackRequest_tracker_ne s now name n hne,
                isProviderAvailable_track s now name n]
        · have heq := selectLoop_cons_selected rest hav hr hc hcap
          have hcapt : capacityOK s name = true := by
            unfold capacityOK
            rw [hc]
            simp [hcap]
          have hpass : passesChecks s now name = true := by
            simp [passesChecks, hav, hr, hcapt]
          have hexn : examinedNames s now (name :: rest) = [name] := by
            conv_lhs => unfold examinedNames
            rw [if_pos hpass]
          refine ⟨?_, ?_, ?_, ?_, ?_, ?_⟩
          · rw [heq, List.find?_cons_of_pos _ hpass]
          · rw [heq]; rfl
          · rw [heq]; rfl
          · rw [heq]; rfl
          · intro m hm
            have hm2 : m ≠ name := fun hc2 => hm (hc2 ▸ List.mem_cons_self _ _)
            rw [heq]
            exact trackRequest_tracker_ne s now name m hm2
          · intro n hn
            rw [hexn] at hn
            simp at hn
            subst hn
            have hgd : (isProviderAvailable s n && rateOK s now n) = true := by
              simp [hav, hr]
            rw [heq, if_pos hgd]
            exact trackRequest_tracker_self s now n
      · have hrf : rateOK s now name = false := by
          cases h2 : rateOK s now name
          · rfl
          · exact absurd h2 hr
        have heq := selectLoop_cons_rateFail rest hav hrf
        have hpass : passesChecks s now name = false := by
          simp [passesChecks, hrf]
        have hexn : examinedNames s now (name :: rest)
            = name :: examinedNames s now rest := by
          conv_lhs => unfold examinedNames
          rw [if_neg (by simp [hpass])]
        obtain ⟨ih1, ih2, ih3, ih4, ih5, ih6⟩ := ih s hnd
        refine ⟨?_, ?_, ?_, ?_, ?_, ?_⟩
        · rw [heq, ih1, List.find?_cons_of_neg _ (by simp [hpass])]
        · rw [heq, ih2]
        · rw [heq, ih3]
        · rw [heq, ih4]
        · intro m hm
          exact heq ▸ ih5 m (fun hc2 => hm (List.mem_cons_of_mem _ hc2))
        · intro n hn
          rw [hexn] at hn
          rcases List.mem_cons.mp hn with h | h
          · subst h
            have hgd : ¬ ((isProviderAvailable s n && rateOK s now n) = true) := by
              simp [hrf]
            rw [heq, if_neg hgd]
            exact ih5 n hnm
          · exact heq ▸ ih6 n h
    · have havf : isProviderAvailable s name = false := by
        cases h2 : isProviderAvailable s name
        · rfl
        · exact absurd h2 hav
      have heq := selectLoop_cons_unavail now rest havf
      have hpass : passesChecks s now name = false := by
        simp [passesChecks, havf]
      have hexn : examinedNames s now (name :: rest)
          = name :: examinedNames s now rest := by
        conv_lhs => unfold examinedNames
        rw [if_neg (by simp [hpass])]
      obtain ⟨ih1, ih2, ih3, ih4, ih5, ih6⟩ := ih s hnd
      refine ⟨?_, ?_, ?_, ?_, ?_, ?_⟩
      · rw [heq, ih1, List.find?_cons_of_neg _ (by simp [hpass])]
      · rw [heq, ih2]
      · rw [heq, ih3]
      · rw [heq, ih4]
      · intro m hm
        exact heq ▸ ih5 m (fun hc2 => hm (List.mem_cons_of_mem _ hc2))
      · intro n hn
        rw [hexn] at hn
        rcases List.mem_cons.mp hn with h | h
        · subst h
          have hgd : ¬ ((isProviderAvailable s n && rateOK s now n) = true) := by
            simp [havf]
          rw [heq, if_neg hgd]
          exact ih5 n hnm
        · exact heq ▸ ih6 n h

/-! ### Characterization of the constructed router state -/

lemma initStep_providerConfigs (s : RouterState) (c : ProviderConfig) :
    (initStep s c).providerConfigs = s.providerConfigs := by
  unfold initStep
  by_cases h1 : c.enabled = false
  · rw [if_pos h1]
  · rw [if_neg h1]
    by_cases h2 : knownProviderName c.name = false
    · rw [if_pos h2]
    · rw [if_neg h2]

lemma initStep_of_good {c : ProviderConfig} (s : RouterState) (h : goodCfg c = true) :
    initStep s c =
      { s with providers := insertName c.name s.providers,
               activeRequests := mapSet c.name 0 s.activeRequests,
               rateLimitTracker := mapSet c.name [] s.rateLimitTracker } := by
  have h2 : c.enabled = true ∧ knownProviderName c.name = true := by
    simpa [goodCfg, Bool.and_eq_true] using h
  unfold initStep
  rw [h2.1, h2.2]
  simp

lemma initStep_of_bad {c : ProviderConfig} (s : RouterState) (h : goodCfg c = false) :
    initStep s c = s := by
  unfold initStep
  by_cases he : c.enabled = false
  · rw [he]
    simp
  · have he2 : c.enabled = true := by revert he; cases c.enabled <;> simp
    have hk : knownProviderName c.name = false := by
      revert h
      unfold goodCfg
      rw [he2]
      cases knownProviderName c.name <;> simp
    rw [he2, hk]
    simp

lemma foldl_initStep_configs :
    ∀ (l : List ProviderConfig) (s : RouterState),
      (List.foldl initStep s l).providerConfigs = s.providerConfigs := by
  intro l
  induction l with
  | nil => intro s; rfl
  | cons c rest ih =>
    intro s
    rw [List.foldl_cons, ih, initStep_providerConfigs]

lemma foldl_initStep_providers :
    ∀ (l : List ProviderConfig) (s : RouterState),
      (l.map (fun c => c.name)).Nodup →
      (∀ c ∈ l, strMem c.name s.providers = false) →
      (List.foldl initStep s l).providers
        = s.providers ++ (l.filter goodCfg).map (fun c => c.name) := by
  intro l
  induction l with
  | nil => intro s _ _; simp
  | cons c rest ih =>
    intro s hnodup hmem
    simp only [List.map_cons, List.nodup_cons] at hnodup
    obtain ⟨hcn, hnd⟩ := hnodup
    cases hg : goodCfg c with
    | true =>
      have hstep := initStep_of_good s hg
      have hprov : (initStep s c).providers = s.providers ++ [c.name] := by
        rw [hstep]
        exact insertName_of_not_mem c.name s.providers (hmem c (List.mem_cons_self _ _))
      have hmem2 : ∀ d ∈ rest, strMem d.name (initStep s c).providers = false := by
        intro d hd
        rw [hprov, strMem_append]
        have h1 : strMem d.name s.providers = false := hmem d (List.mem_cons_of_mem _ hd)
        have hne : c.name ≠ d.name := fun he => hcn (he ▸ List.mem_map_of_mem _ hd)
        have h2 : strMem d.name [c.name] = false := by simp [strMem, hne]
        rw [h1, h2]
        rfl
      rw [List.foldl_cons, ih (initStep s c) hnd hmem2, hprov]
      simp [List.filter_cons, hg]
    | false =>
      rw [List.foldl_cons, initStep_of_bad s hg,
        ih s hnd (fun d hd => hmem d (List.mem_cons_of_mem _ hd))]
      simp [List.filter_cons, hg]

lemma mkRouter_providerConfigs (configs : List ProviderConfig) :
    (mkRouter configs).providerConfigs = sortByKey (fun c => c.priority) configs := by
  have := foldl_initStep_configs (sortByKey (fun c => c.priority) configs)
    { providers := [], providerConfigs := sortByKey (fun c => c.priority) configs,
      activeRequests := [], rateLimitTracker := [] }
  simpa using this

lemma mkRouter_providers (configs : List ProviderConfig)
    (h : (configs.map (fun c => c.name)).Nodup) :
    (mkRouter configs).providers
      = ((sortByKey (fun c => c.priority) configs).filter goodCfg).map (fun c => c.name) := by
  have hperm : (sortByKey (fun c => c.priority) configs).Perm configs :=
    sortByKey_perm _ configs
  have hnodup : ((sortByKey (fun c => c.priority) configs).map (fun c => c.name)).Nodup :=
    ((hperm.map (fun c => c.name)).nodup_iff).mpr h
  have := foldl_initStep_providers (sortByKey (fun c => c.priority) configs)
    { providers := [], providerConfigs := sortByKey (fun c => c.priority) configs,
      activeRequests := [], rateLimitTracker := [] }
    hnodup (fun c _ => rfl)
  simpa using this

lemma initStep_active_nonneg (s : RouterState) (c : ProviderConfig)
    (h : ∀ p ∈ s.activeRequests, 0 ≤ p.2) :
    ∀ p ∈ (initStep s c).activeRequests, 0 ≤ p.2 := by
  intro p hp
  cases hg : goodCfg c with
  | true =>
    rw [initStep_of_good s hg] at hp
    rcases mapSet_mem_val c.name 0 hp with hv | hv
    · simp [hv]
    · exact h p hv
  | false =>
    rw [initStep_of_bad s hg] at hp
    exact h p hp

lemma getD_nonneg_of_vals {m : List (String × Int)} (h : ∀ p ∈ m, 0 ≤ p.2)
    (name : String) : 0 ≤ (mapGet name m).getD 0 := by
  cases hg : mapGet name m with
  | none => simp
  | some v =>
    have := h (name, v) (mapGet_mem name v hg)
    simpa using this

lemma mkRouter_nonneg (configs : List ProviderConfig) : routerNonneg (mkRouter configs) := by
  have hfold : ∀ (l : List ProviderConfig) (s : RouterState),
      (∀ p ∈ s.activeRequests, 0 ≤ p.2) →
      ∀ p ∈ (List.foldl initStep s l).activeRequests, 0 ≤ p.2 := by
    intro l
    induction l with
    | nil => intro s h; exact h
    | cons c rest ih =>
      intro s h
      rw [List.foldl_cons]
      exact ih (initStep s c) (initStep_active_nonneg s c h)
  intro name
  exact getD_nonneg_of_vals
    (hfold (sortByKey (fun c => c.priority) configs)
      { providers := [], providerConfigs := sortByKey (fun c => c.priority) configs,
        activeRequests := [], rateLimitTracker := [] }
      (by intro p hp; cases hp)) name

/-! ### The selection order under nonzero priorities -/

lemma selKey_of_config {s : RouterState} {c : ProviderConfig}
    (hnodup : (s.providerConfigs.map (fun c => c.name)).Nodup)
    (hmem : c ∈ s.providerConfigs) (hp : c.priority ≠ 0) :
    selKey s c.name = c.priority := by
  unfold selKey
  rw [findConfigNamed_of_nodup hnodup hmem]
  simp [jsOr, hp]

lemma selectionOrder_eq_providers {s : RouterState}
    (hprovs : s.providers = (s.providerConfigs.filter goodCfg).map (fun c => c.name))
    (hsorted : s.providerConfigs.Pairwise (fun a b => a.priority ≤ b.priority))
    (hnodup : (s.providerConfigs.map (fun c => c.name)).Nodup)
    (hprio : ∀ c ∈ s.providerConfigs, c.priority ≠ 0) :
    selectionOrder s = s.providers := by
  unfold selectionOrder
  apply sortByKey_of_pairwise
  rw [hprovs, List.pairwise_map]
  have hpw : (s.providerConfigs.filter goodCfg).Pairwise
      (fun a b => a.priority ≤ b.priority) :=
    List.Pairwise.sublist (List.filter_sublist _) hsorted
  refine hpw.imp_of_mem ?_
  intro a b ha hb hab
  rw [selKey_of_config hnodup (List.mem_of_mem_filter ha) (hprio a (List.mem_of_mem_filter ha)),
    selKey_of_config hnodup (List.mem_of_mem_filter hb) (hprio b (List.mem_of_mem_filter hb))]
  exact hab

lemma not_available_of_not_known {s : RouterState}
    (hprovs : s.providers = (s.providerConfigs.filter goodCfg).map (fun c => c.name))
    (hnodup : (s.providerConfigs.map (fun c => c.name)).Nodup)
    {c : ProviderConfig} (hmem : c ∈ s.providerConfigs)
    (hk : knownProviderName c.name = false) :
    isProviderAvailable s c.name = false := by
  unfold isProviderAvailable
  rw [hprovs, strMem_false_iff]
  intro hin
  rcases List.mem_map.mp hin with ⟨d, hd, hdn⟩
  have hdc : d = c := List.inj_on_of_nodup_map hnodup (List.mem_of_mem_filter hd) hmem hdn
  have hgd : goodCfg d = true := (List.mem_filter.mp hd).2
  rw [hdc] at hgd
  simp [goodCfg, hk] at hgd

lemma find_over_enabled_eq_good (s : RouterState) (now : Int) :
    ∀ l : List ProviderConfig,
      (∀ c ∈ l, c.enabled = true → knownProviderName c.name = false →
        passesChecks s now c.name = false) →
      ((l.filter (fun c => c.enabled)).map (fun c => c.name)).find?
          (fun n => passesChecks s now n)
        = ((l.filter goodCfg).map (fun c => c.name)).find? (fun n => passesChecks s now n) := by
  intro l
  induction l with
  | nil => intro _; rfl
  | cons c rest ih =>
    intro h
    have hrest := fun d hd => h d (List.mem_cons_of_mem _ hd)
    by_cases he : c.enabled = true
    · by_cases hk : knownProviderName c.name = true
      · have hg : goodCfg c = true := by simp [goodCfg, he, hk]
        rw [List.filter_cons_of_pos (by simp [he]), List.filter_cons_of_pos hg]
        simp only [List.map_cons]
        by_cases hp : passesChecks s now c.name = true
        · rw [List.find?_cons_of_pos _ hp, List.find?_cons_of_pos _ hp]
        · rw [List.find?_cons_of_neg _ hp, List.find?_cons_of_neg _ hp]
          exact ih hrest
      · have hkf : knownProviderName c.name = false := by
          revert hk; cases knownProviderName c.name <;> simp
        have hg : goodCfg c = false := by simp [goodCfg, hkf]
        have hp : passesChecks s now c.name = false := h c (List.mem_cons_self _ _) he hkf
        rw [List.filter_cons_of_pos (by simp [he]), List.filter_cons_of_neg (by simp [hg])]
        simp only [List.map_cons]
        rw [List.find?_cons_of_neg _ (by simp [hp])]
        exact ih hrest
    · have hef : c.enabled = false := by revert he; cases c.enabled <;> simp
      have hg : goodCfg c = false := by simp [goodCfg, hef]
      rw [List.filter_cons_of_neg (by simp [hef]), List.filter_cons_of_neg (by simp [hg])]
      exact ih hrest

/-! ### Rate-limit window lemmas -/

lemma checkRateLimit_false_of_recent {s : RouterState} {now : Int} {name : String}
    {config : ProviderConfig}
    (hc : findConfigNamed name s.providerConfigs = some config)
    (h : config.rateLimitPerMinute ≤ ((recentOf s now name).length : Int)) :
    checkRateLimit s now name = (false, s) := by
  have hr : rateOK s now name = false := by
    unfold rateOK
    rw [hc]
    simp [h]
  rw [checkRateLimit_eq, hr]
  simp

lemma checkRateLimit_true_of {s : RouterState} {now : Int} {name : String}
    {config : ProviderConfig}
    (hc : findConfigNamed name s.providerConfigs = some config)
    (h : ((recentOf s now name).length : Int) < config.rateLimitPerMinute) :
    checkRateLimit s now name = (true, trackRequest s now name) := by
  have hr : rateOK s now name = true := by
    unfold rateOK
    rw [hc]
    simp [not_le.mpr h]
  rw [checkRateLimit_eq, hr]
  simp

lemma recentOf_replicate {s : RouterState} {name : String} {k : Nat} {now : Int}
    (htr : mapGet name s.rateLimitTracker = some (List.replicate k now)) :
    recentOf s now name = List.replicate k now := by
  unfold recentOf
  rw [htr]
  simp only [Option.getD_some]
  apply List.filter_eq_self.mpr
  intro a ha
  have ha2 : a = now := List.eq_of_mem_replicate ha
  subst ha2
  simp only [decide_eq_true_eq]
  omega

lemma checkSeq_replicate (name : String) (config : ProviderConfig) (now : Int) (N : Nat) :
    ∀ (j : Nat) (k : Nat) (s : RouterState),
      findConfigNamed name s.providerConfigs = some config →
      config.rateLimitPerMinute = (N : Int) →
      mapGet name s.rateLimitTracker = some (List.replicate k now) →
      k + j = N →
      (checkSeq s name (List.replicate (j + 1) now)).1
        = List.replicate j true ++ [false] := by
  intro j
  induction j with
  | zero =>
    intro k s hc hN htr hkj
    have hk : k = N := by omega
    subst hk
    have hrec := recentOf_replicate htr
    have hfalse := checkRateLimit_false_of_recent hc (by rw [hrec]; simp [hN])
    simp [checkSeq, hfalse]
  | succ j ih =>
    intro k s hc hN htr hkj
    have hrec := recentOf_replicate htr
    have hlt : ((recentOf s now name).length : Int) < config.rateLimitPerMinute := by
      rw [hrec, hN]
      simp
      omega
    have hstep := checkRateLimit_true_of hc hlt
    have htr2 : mapGet name (trackRequest s now name).rateLimitTracker
        = some (List.replicate (k + 1) now) := by
      rw [trackRequest_tracker_self, hrec, ← List.replicate_succ']
    have hc2 : findConfigNamed name (trackRequest s now name).providerConfigs
        = some config := by
      rw [trackRequest_providerConfigs]; exact hc
    have hrest := ih (k + 1) (trackRequest s now name) hc2 hN htr2 (by omega)
    have hcons : ∀ (s2 : RouterState) (t : Int) (ts : List Int),
        (checkSeq s2 name (t :: ts)).1
          = (checkRateLimit s2 t name).1
            :: (checkSeq (checkRateLimit s2 t name).2 name ts).1 := by
      intro s2 t ts
      simp [checkSeq]
    rw [List.replicate_succ, hcons, hstep]
    dsimp only
    rw [hrest]
    simp [List.replicate_succ]

/-! ### Active-request counter lemmas -/

lemma mapGet_set_getD {α : Type} (k n : String) (v d : α) (m : List (String × α)) :
    (mapGet n (mapSet k v m)).getD d = if n = k then v else (mapGet n m).getD d := by
  by_cases h : n = k
  · subst h
    rw [mapGet_set_self]
    simp
  · rw [mapGet_set_ne k n v h]
    simp [h]

lemma activeCount_inc_dec {s : RouterState} {name : String}
    (h : 0 ≤ (mapGet name s.activeRequests).getD 0) :
    (mapGet name
        (decrementActiveRequests (incrementActiveRequests s name) name).activeRequests).getD 0
      = (mapGet name s.activeRequests).getD 0 := by
  unfold decrementActiveRequests incrementActiveRequests
  simp only [mapGet_set_getD, if_pos rfl, mapGet_set_self, Option.getD_some]
  have h1 : (mapGet name s.activeRequests).getD 0 + 1 - 1
      = (mapGet name s.activeRequests).getD 0 := by omega
  rw [h1]
  exact max_eq_right h

lemma inc_nonneg {s : RouterState} {name : String} (hs : routerNonneg s) :
    routerNonneg (incrementActiveRequests s name) := by
  intro n
  unfold incrementActiveRequests
  rw [mapGet_set_getD]
  by_cases h : n = name
  · rw [if_pos h]
    have := hs name
    omega
  · rw [if_neg h]
    exact hs n

lemma dec_nonneg {s : RouterState} {name : String} (hs : routerNonneg s) :
    routerNonneg (decrementActiveRequests s name) := by
  intro n
  unfold decrementActiveRequests
  rw [mapGet_set_getD]
  by_cases h : n = name
  · rw [if_pos h]
    exact le_max_left 0 _
  · rw [if_neg h]
    exact hs n

lemma routerNonneg_of_active_eq {s1 s2 : RouterState}
    (h : s1.activeRequests = s2.activeRequests) (hs : routerNonneg s2) :
    routerNonneg s1 := by
  intro n
  unfold routerNonneg at hs
  rw [h]
  exact hs n

/-! ### State frame of the selection loop (no distinctness needed) -/

lemma selectLoop_frame (now : Int) :
    ∀ (names : List String) (s : RouterState),
      (selectLoop now s names).2.providers = s.providers
      ∧ (selectLoop now s names).2.providerConfigs = s.providerConfigs
      ∧ (selectLoop now s names).2.activeRequests = s.activeRequests := by
  intro names
  induction names with
  | nil => intro s; exact ⟨rfl, rfl, rfl⟩
  | cons name rest ih =>
    intro s
    by_cases hav : isProviderAvailable s name = true
    · by_cases hr : rateOK s now name = true
      · obtain ⟨config, hc⟩ := rateOK_true_config hr
        by_cases hcap : (mapGet name s.activeRequests).getD 0 ≥ config.maxConcurrent
        · rw [selectLoop_cons_capFail rest hav hr hc hcap]
          obtain ⟨f1, f2, f3⟩ := ih (trackRequest s now name)
          exact ⟨by rw [f1]; rfl, by rw [f2]; rfl, by rw [f3]; rfl⟩
        · rw [selectLoop_cons_selected rest hav hr hc hcap]
          exact ⟨rfl, rfl, rfl⟩
      · have hrf : rateOK s now name = false := by
          cases h2 : rateOK s now name
          · rfl
          · exact absurd h2 hr
        rw [selectLoop_cons_rateFail rest hav hrf]
        exact ih s
    · have havf : isProviderAvailable s name = false := by
        cases h2 : isProviderAvailable s name
        · rfl
        · exact absurd h2 hav
      rw [selectLoop_cons_unavail now rest havf]
      exact ih s

/-! ### Shape lemmas for the provider stream emissions -/

lemma oaiLines_shape :
    ∀ ls : List OAILine,
      ((oaiLines ls).2 = false ∧ ∀ c ∈ (oaiLines ls).1, isContentChunk c = true)
      ∨ ((oaiLines ls).2 = true ∧ ∃ cs, (∀ c ∈ cs, isContentChunk c = true)
          ∧ (oaiLines ls).1 = cs ++ [StreamChunk.endChunk]) := by
  intro ls
  induction ls with
  | nil => left; exact ⟨rfl, by simp [oaiLines]⟩
  | cons line rest ih =>
    cases line with
    | notData => simpa [oaiLines] using ih
    | dataOther => simpa [oaiLines] using ih
    | dataDone =>
      right
      exact ⟨rfl, [], by simp, rfl⟩
    | dataContent text =>
      rcases ih with ⟨h2, hall⟩ | ⟨h2, cs, hcs, heq⟩
      · left
        constructor
        · simp [oaiLines, h2]
        · intro c hc
          simp only [oaiLines, List.mem_cons] at hc
          rcases hc with hc | hc
          · simp [hc, isContentChunk]
          · exact hall c hc
      · right
        refine ⟨by simp [oaiLines, h2], StreamChunk.content text :: cs, ?_, ?_⟩
        · intro c hc
          rcases List.mem_cons.mp hc with hc | hc
          · simp [hc, isContentChunk]
          · exact hcs c hc
        · simp [oaiLines, heq]

lemma oaiReads_shape :
    ∀ rs : List (List OAILine),
      ((oaiReads rs).2 = false ∧ ∀ c ∈ (oaiReads rs).1, isContentChunk c = true)
      ∨ ((oaiReads rs).2 = true ∧ ∃ cs, (∀ c ∈ cs, isContentChunk c = true)
          ∧ (oaiReads rs).1 = cs ++ [StreamChunk.endChunk]) := by
  intro rs
  induction rs with
  | nil => left; exact ⟨rfl, by simp [oaiReads]⟩
  | cons r rest ih =>
    rcases oaiLines_shape r with ⟨h2, hall⟩ | ⟨h2, cs, hcs, heq⟩
    · rcases ih with ⟨i2, iall⟩ | ⟨i2, ds, hds, ieq⟩
      · left
        constructor
        · simp [oaiReads, h2, i2]
        · intro c hc
          simp only [oaiReads, h2, Bool.false_eq_true, if_false, List.mem_append] at hc
          rcases hc with hc | hc
          · exact hall c hc
          · exact iall c hc
      · right
        constructor
        · simp [oaiReads, h2, i2]
        · refine ⟨(oaiLines r).1 ++ ds, ?_, ?_⟩
          · intro c hc
            rcases List.mem_append.mp hc with hc | hc
            · exact hall c hc
            · exact hds c hc
          · simp [oaiReads, h2, ieq]
    · right
      exact ⟨by simp [oaiReads, h2], cs, hcs, by simp [oaiReads, h2, heq]⟩

lemma anthLines_shape :
    ∀ ls : List AnthLine, ∀ c ∈ anthLines ls,
      isContentChunk c = true ∨ c = StreamChunk.endChunk := by
  intro ls
  induction ls with
  | nil => simp [anthLines]
  | cons line rest ih =>
    intro c hc
    cases line with
    | notData => exact ih c (by simpa [anthLines] using hc)
    | dataOther => exact ih c (by simpa [anthLines] using hc)
    | dataContentDelta text =>
      simp only [anthLines, List.mem_cons] at hc
      rcases hc with hc | hc
      · left; simp [hc, isContentChunk]
      · exact ih c hc
    | dataMessageStop =>
      simp only [anthLines, List.mem_cons] at hc
      rcases hc with hc | hc
      · right; exact hc
      · exact ih c hc

lemma anthReads_shape (reads : List (List AnthLine)) :
    ∀ c ∈ anthReads reads, isContentChunk c = true ∨ c = StreamChunk.endChunk := by
  intro c hc
  unfold anthReads at hc
  rcases List.mem_flatten.mp hc with ⟨l, hl, hcl⟩
  rcases List.mem_map.mp hl with ⟨r, _hr, hres⟩
  exact anthLines_shape r c (hres ▸ hcl)

/-! ### Claim theorems -/

/-- C1: for every invoke or stream call, the selected backend's
`activeCount` returns to its pre-call value after the call completes —
whether the adapter resolves, throws synchronously, rejects
asynchronously, or the stream is cancelled by the consumer before the
terminal chunk — and the selected adapter is invoked exactly once
(`leave` runs exactly once per `enter` on every exit path of the
`try`/`finally`). -/
theorem c1_active_count_restored
    (s : RouterState) (req : LLMRequest) (now : Int) (name : String)
    (adapter : String → AdapterOutcome) (chunks : List StreamChunk)
    (how : StreamConsumption)
    (hpre : 0 ≤ (mapGet name s.activeRequests).getD 0)
    (hsel : (selectProvider s req now).1 = some name) :
    (mapGet name (invoke s req now adapter).state.activeRequests).getD 0
        = (mapGet name s.activeRequests).getD 0
    ∧ (mapGet name (streamRun s req now chunks how).state.activeRequests).getD 0
        = (mapGet name s.activeRequests).getD 0
    ∧ (invoke s req now adapter).invoked = [name]
    ∧ (streamRun s req now chunks how).invoked = [name] := by
  obtain ⟨_, _, hact⟩ := selectLoop_frame now (selectionOrder s) s
  rcases hsp : selectProvider s req now with ⟨o, s1⟩
  have ho : o = some name := by rw [hsp] at hsel; exact hsel
  subst ho
  have hs1act : s1.activeRequests = s.activeRequests := by
    have h2 : (selectProvider s req now).2 = s1 := by rw [hsp]
    rw [← h2]
    exact hact
  have hpre1 : 0 ≤ (mapGet name s1.activeRequests).getD 0 := by
    rw [hs1act]; exact hpre
  have hkey := activeCount_inc_dec hpre1
  have hinv : (invoke s req now adapter).state
      = decrementActiveRequests (incrementActiveRequests s1 name) name
      ∧ (invoke s req now adapter).invoked = [name] := by
    unfold invoke
    rw [hsp]
    dsimp only
    cases h2 : adapter name <;> exact ⟨rfl, rfl⟩
  have hstr : (streamRun s req now chunks how).state
      = decrementActiveRequests (incrementActiveRequests s1 name) name
      ∧ (streamRun s req now chunks how).invoked = [name] := by
    unfold streamRun
    rw [hsp]
    dsimp only
    cases how <;> exact ⟨rfl, rfl⟩
  refine ⟨?_, ?_, hinv.2, hstr.2⟩
  · rw [hinv.1, hkey, hs1act]
  · rw [hstr.1, hkey, hs1act]

/-- Witness for C1 at a concrete two-backend router, exercising both a
rejected invoke and a stream cancelled before any chunk. -/
theorem c1_active_count_restored_witness :
    (0 ≤ (mapGet "openai" (mkRouter [openAICfg, anthropicCfg]).activeRequests).getD 0)
    ∧ ((selectProvider (mkRouter [openAICfg, anthropicCfg]) sampleRequest 0).1
        = some "openai")
    ∧ (mapGet "openai" (invoke (mkRouter [openAICfg, anthropicCfg]) sampleRequest 0
          failingAdapter).state.activeRequests).getD 0
        = (mapGet "openai" (mkRouter [openAICfg, anthropicCfg]).activeRequests).getD 0
    ∧ (mapGet "openai" (streamRun (mkRouter [openAICfg, anthropicCfg]) sampleRequest 0 []
          (StreamConsumption.cancelledAfter 0)).state.activeRequests).getD 0
        = (mapGet "openai" (mkRouter [openAICfg, anthropicCfg]).activeRequests).getD 0
    ∧ (invoke (mkRouter [openAICfg, anthropicCfg]) sampleRequest 0 failingAdapter).invoked
        = ["openai"]
    ∧ (streamRun (mkRouter [openAICfg, anthropicCfg]) sampleRequest 0 []
          (StreamConsumption.cancelledAfter 0)).invoked = ["openai"] := by
  have h := c1_active_count_restored (mkRouter [openAICfg, anthropicCfg]) sampleRequest 0
    "openai" failingAdapter [] (StreamConsumption.cancelledAfter 0) (by decide) (by decide)
  exact ⟨by decide, by decide, h.1, h.2.1, h.2.2.1, h.2.2.2⟩

/-- C2 counterexample: with an enabled openai backend at priority 0 and an
enabled anthropic backend at priority 1 + 1, openai passes every check and
has the strictly lower priority number, yet selection returns anthropic
(the selection sort's `priority || 999` fallback treats the falsy priority
0 as 999). -/
theorem c2_priority_zero_counterexample :
    (selectProvider (mkRouter [zeroPriorityOpenAICfg, anthropicCfg]) sampleRequest 0).1
        = some "anthropic"
    ∧ passesChecks (mkRouter [zeroPriorityOpenAICfg, anthropicCfg]) 0 "openai" = true
    ∧ zeroPriorityOpenAICfg.enabled = true
    ∧ zeroPriorityOpenAICfg.priority < anthropicCfg.priority
    ∧ (specSelectionOrder [zeroPriorityOpenAICfg, anthropicCfg]).find?
        (fun n => passesChecks (mkRouter [zeroPriorityOpenAICfg, anthropicCfg]) 0 n)
      = some "openai" := by
  decide

/-- C2 (amended): provided backend names are distinct and no backend's
priority is the falsy number 0, selection over any admission state returns
the first backend — in ascending priority order, ties broken by original
configuration order, enabled backends only — that passes the
availability, rate-limit and capacity checks; if none passes, invoke and
stream fail with the no-available-backend error and no adapter is
invoked. -/
theorem c2_selection_lowest_priority
    (configs : List ProviderConfig) (act : List (String × Int))
    (rt : List (String × List Int)) (req : LLMRequest) (now : Int)
    (adapter : String → AdapterOutcome) (chunks : List StreamChunk)
    (how : StreamConsumption)
    (hnodup : (configs.map (fun c => c.name)).Nodup)
    (hprio : ∀ c ∈ configs, c.priority ≠ 0) :
    (selectProvider { mkRouter configs with activeRequests := act, rateLimitTracker := rt }
        req now).1
      = (specSelectionOrder configs).find?
          (fun n => passesChecks
            { mkRouter configs with activeRequests := act, rateLimitTracker := rt } now n)
    ∧ ((specSelectionOrder configs).find?
          (fun n => passesChecks
            { mkRouter configs with activeRequests := act, rateLimitTracker := rt } now n)
          = none →
        invoke { mkRouter configs with activeRequests := act, rateLimitTracker := rt }
            req now adapter
          = { result := InvokeResult.noProvider,
              state := (selectProvider
                { mkRouter configs with activeRequests := act, rateLimitTracker := rt }
                req now).2,
              invoked := [] }
        ∧ streamRun { mkRouter configs with activeRequests := act, rateLimitTracker := rt }
            req now chunks how
          = { result := InvokeResult.noProvider,
              state := (selectProvider
                { mkRouter configs with activeRequests := act, rateLimitTracker := rt }
                req now).2,
              invoked := [], delivered := [] }) := by
  set s : RouterState :=
    { mkRouter configs with activeRequests := act, rateLimitTracker := rt } with hs
  have hconf : s.providerConfigs = sortByKey (fun c => c.priority) configs :=
    mkRouter_providerConfigs configs
  have hprovs0 : s.providers
      = ((sortByKey (fun c => c.priority) configs).filter goodCfg).map (fun c => c.name) :=
    mkRouter_providers configs hnodup
  have hprovs : s.providers = (s.providerConfigs.filter goodCfg).map (fun c => c.name) := by
    rw [hconf]; exact hprovs0
  have hnodup2 : (s.providerConfigs.map (fun c => c.name)).Nodup := by
    rw [hconf]
    exact ((sortByKey_perm (fun c => c.priority) configs).map (fun c => c.name)).nodup_iff.mpr
      hnodup
  have hsorted : s.providerConfigs.Pairwise (fun a b => a.priority ≤ b.priority) := by
    rw [hconf]
    exact sortByKey_pairwise (fun c => c.priority) configs
  have hprio2 : ∀ c ∈ s.providerConfigs, c.priority ≠ 0 := by
    rw [hconf]
    intro c hcmem
    exact hprio c ((sortByKey_perm (fun c => c.priority) configs).mem_iff.mp hcmem)
  have horder : selectionOrder s = s.providers :=
    selectionOrder_eq_providers hprovs hsorted hnodup2 hprio2
  have hprovnodup : s.providers.Nodup := by
    rw [hprovs]
    have hsub : (s.providerConfigs.filter goodCfg).Sublist s.providerConfigs :=
      List.filter_sublist _
    exact List.Nodup.sublist (List.Sublist.map (fun c => c.name) hsub) hnodup2
  have hordernodup : (selectionOrder s).Nodup := by
    rw [horder]; exact hprovnodup
  obtain ⟨hfind, _, _, _, _, _⟩ := selectLoop_spec now (selectionOrder s) s hordernodup
  have hsel : (selectProvider s req now).1
      = s.providers.find? (fun n => passesChecks s now n) := by
    unfold selectProvider
    rw [hfind, horder]
  have hunknown : ∀ c ∈ s.providerConfigs, c.enabled = true →
      knownProviderName c.name = false → passesChecks s now c.name = false := by
    intro c hcm _ hk
    have hav := not_available_of_not_known hprovs hnodup2 hcm hk
    simp [passesChecks, hav]
  have hcompare := find_over_enabled_eq_good s now s.providerConfigs hunknown
  have hspec : specSelectionOrder configs
      = (s.providerConfigs.filter (fun c => c.enabled)).map (fun c => c.name) := by
    unfold specSelectionOrder
    rw [hconf]
  have hmain : (selectProvider s req now).1
      = (specSelectionOrder configs).find? (fun n => passesChecks s now n) := by
    rw [hsel, hprovs, hspec]
    exact hcompare.symm
  refine ⟨hmain, ?_⟩
  intro hnone
  have hselnone : (selectProvider s req now).1 = none := by rw [hmain, hnone]
  rcases hsp : selectProvider s req now with ⟨o, s1⟩
  have ho : o = none := by rw [hsp] at hselnone; exact hselnone
  subst ho
  constructor
  · unfold invoke
    rw [hsp]
  · unfold streamRun
    rw [hsp]

/-- Witness for the amended C2 at a concrete two-backend router. -/
theorem c2_selection_lowest_priority_witness :
    (([openAICfg, anthropicCfg].map (fun c => c.name)).Nodup)
    ∧ (∀ c ∈ [openAICfg, anthropicCfg], c.priority ≠ 0)
    ∧ (selectProvider { mkRouter [openAICfg, anthropicCfg] with activeRequests := [], rateLimitTracker := [] } sampleRequest 0).1
        = (specSelectionOrder [openAICfg, anthropicCfg]).find?
            (fun n => passesChecks { mkRouter [openAICfg, anthropicCfg] with activeRequests := [], rateLimitTracker := [] } 0 n) := by
  refine ⟨by decide, by decide, ?_⟩
  exact (c2_selection_lowest_priority [openAICfg, anthropicCfg] [] [] sampleRequest 0
    failingAdapter [] StreamConsumption.toCompletion (by decide) (by decide)).1

/-- C4: evaluation at the failing input.  With openai (priority 1) whose
adapter rejects and a healthy anthropic (priority 2) that passes every
admission check, the router invokes only openai and surfaces the adapter
error to the caller: no failover to the next-priority backend happens
after an adapter failure. -/
theorem c4_no_failover_after_adapter_error :
    (invoke (mkRouter [openAICfg, anthropicCfg]) sampleRequest 0 failingAdapter).result
        = InvokeResult.adapterError
    ∧ (invoke (mkRouter [openAICfg, anthropicCfg]) sampleRequest 0 failingAdapter).invoked
        = ["openai"]
    ∧ passesChecks (mkRouter [openAICfg, anthropicCfg]) 0 "anthropic" = true := by
  decide

/-- C10: a backend whose `rateLimitPerMinute` is zero (or negative) fails
its rate-limit check on every call, even with an empty timestamp window;
if every configured backend has such a limit, selection returns no
backend and invoke and stream fail with the no-available-backend error
without invoking any adapter and without changing the state. -/
theorem c10_zero_rate_limit_blocks
    (s : RouterState) (req : LLMRequest) (now : Int) (name : String)
    (config : ProviderConfig) (adapter : String → AdapterOutcome)
    (chunks : List StreamChunk) (how : StreamConsumption) :
    ((findConfigNamed name s.providerConfigs = some config) →
      config.rateLimitPerMinute ≤ 0 →
      checkRateLimit s now name = (false, s))
    ∧ ((∀ c ∈ s.providerConfigs, c.rateLimitPerMinute ≤ 0) →
        selectProvider s req now = (none, s)
        ∧ invoke s req now adapter
            = { result := InvokeResult.noProvider, state := s, invoked := [] }
        ∧ streamRun s req now chunks how
            = { result := InvokeResult.noProvider, state := s, invoked := [],
                delivered := [] }) := by
  have hloop : ∀ (names : List String) (s2 : RouterState),
      (∀ c ∈ s2.providerConfigs, c.rateLimitPerMinute ≤ 0) →
      selectLoop now s2 names = (none, s2) := by
    intro names
    induction names with
    | nil => intro s2 _; rfl
    | cons nm rest ih =>
      intro s2 hall
      by_cases hav : isProviderAvailable s2 nm = true
      · have hr : rateOK s2 now nm = false := by
          unfold rateOK
          cases hcf : findConfigNamed nm s2.providerConfigs with
          | none => rfl
          | some cfg =>
            dsimp only
            have hle := hall cfg (findConfigNamed_mem hcf).1
            rw [if_pos (by omega)]
        rw [selectLoop_cons_rateFail rest hav hr]
        exact ih s2 hall
      · have havf : isProviderAvailable s2 nm = false := by
          cases h2 : isProviderAvailable s2 nm
          · rfl
          · exact absurd h2 hav
        rw [selectLoop_cons_unavail now rest havf]
        exact ih s2 hall
  refine ⟨?_, ?_⟩
  · intro hc hle
    apply checkRateLimit_false_of_recent hc
    omega
  · intro hall
    have hsel : selectProvider s req now = (none, s) := by
      unfold selectProvider
      exact hloop (selectionOrder s) s hall
    refine ⟨hsel, ?_, ?_⟩
    · unfold invoke
      rw [hsel]
    · unfold streamRun
      rw [hsel]

/-- Witness for C10 at a concrete router whose only backend has
`rateLimitPerMinute = 0`. -/
theorem c10_zero_rate_limit_blocks_witness :
    (findConfigNamed "openai" (mkRouter [zeroRateCfg]).providerConfigs = some zeroRateCfg)
    ∧ zeroRateCfg.rateLimitPerMinute ≤ 0
    ∧ (∀ c ∈ (mkRouter [zeroRateCfg]).providerConfigs, c.rateLimitPerMinute ≤ 0)
    ∧ checkRateLimit (mkRouter [zeroRateCfg]) 0 "openai" = (false, mkRouter [zeroRateCfg])
    ∧ selectProvider (mkRouter [zeroRateCfg]) sampleRequest 0
        = (none, mkRouter [zeroRateCfg]) := by
  refine ⟨by decide, by decide, by decide, ?_, ?_⟩
  · exact (c10_zero_rate_limit_blocks (mkRouter [zeroRateCfg]) sampleRequest 0 "openai"
      zeroRateCfg failingAdapter [] StreamConsumption.toCompletion).1 (by decide) (by decide)
  · exact ((c10_zero_rate_limit_blocks (mkRouter [zeroRateCfg]) sampleRequest 0 "openai"
      zeroRateCfg failingAdapter [] StreamConsumption.toCompletion).2 (by decide)).1

/-- C3 counterexample: (i) when the OpenAI transport reports done without
ever sending a `[DONE]` frame, the emitted sequence is `[start]` — no
terminal chunk at all; (ii) the Anthropic loop does not stop at
`message_stop`, so two such frames emit two `end` chunks; (iii) a setup
failure before `start` emits `[error]` with no `start`.  Each sequence
violates the claimed start/content*/one-terminal grammar. -/
theorem c3_missing_terminal_counterexample :
    openAIStream SetupResult.ok (Transport.ends []) = [StreamChunk.start]
    ∧ specWellFormedStream (openAIStream SetupResult.ok (Transport.ends [])) = false
    ∧ anthropicStream SetupResult.ok
        (Transport.ends [[AnthLine.dataMessageStop, AnthLine.dataMessageStop]])
      = [StreamChunk.start, StreamChunk.endChunk, StreamChunk.endChunk]
    ∧ specWellFormedStream (anthropicStream SetupResult.ok
        (Transport.ends [[AnthLine.dataMessageStop, AnthLine.dataMessageStop]])) = false
    ∧ specWellFormedStream (openAIStream SetupResult.httpError (Transport.ends [])) = false := by
  decide

/-- C3 (amended): when setup fails before `start`, the emitted sequence is
the single chunk `[error]`.  When setup succeeds, the sequence is exactly
one `start` followed by a body: for OpenAI the body is content chunks
followed by at most one terminal — `end` after a `[DONE]` frame, `error`
after a mid-stream transport failure, and no terminal at all when the
transport ends without `[DONE]`; for Anthropic the body is content and
`end` chunks (one `end` per `message_stop`, possibly zero or several,
without terminating the stream), followed by a final `error` exactly when
the transport fails. -/
theorem c3_stream_chunk_shape
    (setup : SetupResult) (trO : Transport OAILine) (trA : Transport AnthLine) :
    (setup ≠ SetupResult.ok →
      openAIStream setup trO = [StreamChunk.error]
      ∧ anthropicStream setup trA = [StreamChunk.error])
    ∧ (∃ body tail, (∀ c ∈ body, isContentChunk c = true)
        ∧ (tail = [] ∨ tail = [StreamChunk.endChunk] ∨ tail = [StreamChunk.error])
        ∧ openAIStream SetupResult.ok trO = StreamChunk.start :: (body ++ tail))
    ∧ (∃ body tail, (∀ c ∈ body, isContentChunk c = true ∨ c = StreamChunk.endChunk)
        ∧ (tail = [] ∨ tail = [StreamChunk.error])
        ∧ anthropicStream SetupResult.ok trA = StreamChunk.start :: (body ++ tail)) := by
  refine ⟨?_, ?_, ?_⟩
  · intro hne
    constructor
    · cases setup with
      | ok => exact absurd rfl hne
      | httpError => rfl
      | noBody => rfl
      | fetchFail => rfl
    · cases setup with
      | ok => exact absurd rfl hne
      | httpError => rfl
      | noBody => rfl
      | fetchFail => rfl
  · cases trO with
    | ends reads =>
      rcases oaiReads_shape reads with ⟨_, hall⟩ | ⟨_, cs, hcs, heq⟩
      · exact ⟨(oaiReads reads).1, [], hall, Or.inl rfl, by simp [openAIStream]⟩
      · exact ⟨cs, [StreamChunk.endChunk], hcs, Or.inr (Or.inl rfl),
          by simp [openAIStream, heq]⟩
    | failsAfter reads =>
      rcases oaiReads_shape reads with ⟨h2, hall⟩ | ⟨h2, cs, hcs, heq⟩
      · refine ⟨(oaiReads reads).1, [StreamChunk.error], hall, Or.inr (Or.inr rfl), ?_⟩
        simp [openAIStream, h2]
      · refine ⟨cs, [StreamChunk.endChunk], hcs, Or.inr (Or.inl rfl), ?_⟩
        simp [openAIStream, h2, heq]
  · cases trA with
    | ends reads =>
      exact ⟨anthReads reads, [], anthReads_shape reads, Or.inl rfl,
        by simp [anthropicStream]⟩
    | failsAfter reads =>
      exact ⟨anthReads reads, [StreamChunk.error], anthReads_shape reads, Or.inr rfl,
        by simp [anthropicStream]⟩

/-- Witness for the amended C3 at concrete transports: a failed setup, an
OpenAI transport with one content frame then a transport failure, and an
Anthropic transport with a `message_stop` then a transport failure. -/
theorem c3_stream_chunk_shape_witness :
    (SetupResult.httpError ≠ SetupResult.ok →
      openAIStream SetupResult.httpError
          (Transport.failsAfter [[OAILine.dataContent "hi"]]) = [StreamChunk.error]
      ∧ anthropicStream SetupResult.httpError
          (Transport.failsAfter [[AnthLine.dataMessageStop]]) = [StreamChunk.error])
    ∧ (∃ body tail, (∀ c ∈ body, isContentChunk c = true)
        ∧ (tail = [] ∨ tail = [StreamChunk.endChunk] ∨ tail = [StreamChunk.error])
        ∧ openAIStream SetupResult.ok (Transport.failsAfter [[OAILine.dataContent "hi"]])
          = StreamChunk.start :: (body ++ tail))
    ∧ (∃ body tail, (∀ c ∈ body, isContentChunk c = true ∨ c = StreamChunk.endChunk)
        ∧ (tail = [] ∨ tail = [StreamChunk.error])
        ∧ anthropicStream SetupResult.ok (Transport.failsAfter [[AnthLine.dataMessageStop]])
          = StreamChunk.start :: (body ++ tail)) :=
  c3_stream_chunk_shape SetupResult.httpError
    (Transport.failsAfter [[OAILine.dataContent "hi"]])
    (Transport.failsAfter [[AnthLine.dataMessageStop]])

lemma filter_length_mono {α : Type} (p1 p2 : α → Bool) :
    ∀ l : List α, (∀ a ∈ l, p2 a = true → p1 a = true) →
      (l.filter p2).length ≤ (l.filter p1).length := by
  intro l
  induction l with
  | nil => intro _; simp
  | cons x rest ih =>
    intro h
    have hrest := ih (fun a ha => h a (List.mem_cons_of_mem _ ha))
    by_cases h2 : p2 x = true
    · have h1 : p1 x = true := h x (List.mem_cons_self _ _) h2
      rw [List.filter_cons_of_pos h2, List.filter_cons_of_pos h1]
      simpa using hrest
    · rw [List.filter_cons_of_neg h2]
      by_cases h1 : p1 x = true
      · rw [List.filter_cons_of_pos h1]
        simp only [List.length_cons]
        omega
      · rw [List.filter_cons_of_neg h1]
        exact hrest

lemma filter_length_lt {α : Type} (p1 p2 : α → Bool) :
    ∀ l : List α, (∀ a ∈ l, p2 a = true → p1 a = true) →
      ∀ a0 ∈ l, p1 a0 = true → p2 a0 = false →
      (l.filter p2).length < (l.filter p1).length := by
  intro l
  induction l with
  | nil => intro _ a0 h; simp at h
  | cons x rest ih =>
    intro h a0 ha0 hp1 hp2
    have himp_rest := fun a ha => h a (List.mem_cons_of_mem _ ha)
    have hmono := filter_length_mono p1 p2 rest himp_rest
    rcases List.mem_cons.mp ha0 with hx | hx
    · subst hx
      rw [List.filter_cons_of_neg (by simp [hp2]), List.filter_cons_of_pos hp1]
      simp only [List.length_cons]
      omega
    · by_cases h2 : p2 x = true
      · have h1 : p1 x = true := h x (List.mem_cons_self _ _) h2
        rw [List.filter_cons_of_pos h2, List.filter_cons_of_pos h1]
        simp only [List.length_cons]
        have := ih himp_rest a0 hx hp1 hp2
        omega
      · rw [List.filter_cons_of_neg h2]
        by_cases h1 : p1 x = true
        · rw [List.filter_cons_of_pos h1]
          simp only [List.length_cons]
          have := ih himp_rest a0 hx hp1 hp2
          omega
        · rw [List.filter_cons_of_neg h1]
          exact ih himp_rest a0 hx hp1 hp2

/-- C5: the rolling rate-limit window.  With `rateLimitPerMinute = N`:
a check finding at least N timestamps in the trailing 60-second window
fails without mutating anything (the (N+1)-th admission within the window
is rejected, as the sequential conjunct shows from an empty window); when
the window holds N counted timestamps, the backend becomes eligible again
at any later instant at which the oldest counted timestamp is more than
60 seconds old; and a passing check records the current instant into the
window in the same step, so passing always consumes one slot. -/
theorem c5_rate_limit_window
    (s : RouterState) (name : String) (config : ProviderConfig) (now : Int) (N : Nat)
    (now2 oldest : Int)
    (hc : findConfigNamed name s.providerConfigs = some config)
    (hN : config.rateLimitPerMinute = (N : Int)) :
    (((N : Int) ≤ ((recentOf s now name).length : Int)) →
        checkRateLimit s now name = (false, s))
    ∧ (mapGet name s.rateLimitTracker = some [] →
        (checkSeq s name (List.replicate (N + 1) now)).1
          = List.replicate N true ++ [false])
    ∧ ((recentOf s now name).length = N →
        now ≤ now2 →
        oldest ∈ recentOf s now name →
        (∀ t ∈ recentOf s now name, oldest ≤ t) →
        60000 < now2 - oldest →
        (checkRateLimit s now2 name).1 = true)
    ∧ ((checkRateLimit s now name).1 = true →
        mapGet name (checkRateLimit s now name).2.rateLimitTracker
          = some (recentOf s now name ++ [now])) := by
  refine ⟨?_, ?_, ?_, ?_⟩
  · intro h
    exact checkRateLimit_false_of_recent hc (by rw [hN]; exact h)
  · intro htr
    exact checkSeq_replicate name config now N N 0 s hc hN (by rw [htr]; rfl) (by omega)
  · intro hlen hfwd hmem _hmin hage
    have htrmem : oldest ∈ (mapGet name s.rateLimitTracker).getD [] :=
      List.mem_of_mem_filter hmem
    have hp1 : (decide (now - 60000 < oldest)) = true := (List.mem_filter.mp hmem).2
    have hp2 : (decide (now2 - 60000 < oldest)) = false := by
      simp only [decide_eq_false_iff_not]
      omega
    have hstep : (recentOf s now2 name).length < (recentOf s now name).length := by
      unfold recentOf
      refine filter_length_lt _ _ _ ?_ oldest htrmem hp1 hp2
      intro a _ hp
      simp only [decide_eq_true_eq] at hp ⊢
      omega
    have hlt : ((recentOf s now2 name).length : Int) < config.rateLimitPerMinute := by
      rw [hlen] at hstep
      rw [hN]
      exact_mod_cast hstep
    rw [checkRateLimit_true_of hc hlt]
  · intro h
    have h2 : rateOK s now name = true := by
      have h3 := h
      rw [checkRateLimit_eq] at h3
      simpa using h3
    rw [checkRateLimit_eq, h2]
    simp [trackRequest_tracker_self]

/-- Witness for C5 at concrete routers with `rateLimitPerMinute = 2`: two
same-instant checks pass and the third is rejected; and with the window
holding instants 0 and 30000 (at capacity at instant 30000, where the
check rejects), the check passes again at instant 61000, when the oldest
entry 0 is more than 60 seconds old while 30000 is still in the window. -/
theorem c5_rate_limit_window_witness :
    (findConfigNamed "openai" routerWindowAtCapacity.providerConfigs = some rateCfg2)
    ∧ rateCfg2.rateLimitPerMinute = ((2 : Nat) : Int)
    ∧ (checkSeq (mkRouter [rateCfg2]) "openai" (List.replicate (2 + 1) 0)).1
        = List.replicate 2 true ++ [false]
    ∧ (checkRateLimit routerWindowAtCapacity 30000 "openai").1 = false
    ∧ (checkRateLimit routerWindowAtCapacity 61000 "openai").1 = true := by
  refine ⟨by decide, by decide, ?_, by decide, ?_⟩
  · exact (c5_rate_limit_window (mkRouter [rateCfg2]) "openai" rateCfg2 0 2 0 0
      (by decide) (by decide)).2.1 (by decide)
  · exact (c5_rate_limit_window routerWindowAtCapacity "openai" rateCfg2 30000 2 61000 0
      (by decide) (by decide)).2.2.1 (by decide) (by decide) (by decide) (by decide)
      (by decide)

/-- C6 counterexample: with openai enabled and anthropic disabled, the
status snapshot contains exactly one entry — the disabled backend gets no
entry, contradicting "one entry for every configured backend (including
disabled ones)". -/
theorem c6_disabled_backend_missing :
    getStatus (mkRouter [openAICfg, disabledAnthropicCfg])
      = [{ name := "openai", active := 0, available := true }]
    ∧ "anthropic" ∈ [openAICfg, disabledAnthropicCfg].map (fun c => c.name)
    ∧ "anthropic" ∉ (getStatus (mkRouter [openAICfg, disabledAnthropicCfg])).map
        (fun e => e.name) := by
  decide

/-- C6 (amended): the status snapshot returns one `{name, active,
available}` entry for each backend with an instantiated adapter (enabled
at construction with a recognized name), in priority order, with `active`
equal to the current per-backend counter and `available` always `true` —
independent of the rate-limit window contents; disabled or unrecognized
backends are omitted.  (The snapshot is modelled as a pure function of
the state: it reads and never modifies admission state.) -/
theorem c6_status_snapshot
    (configs : List ProviderConfig) (act : List (String × Int))
    (rt : List (String × List Int))
    (hnodup : (configs.map (fun c => c.name)).Nodup) :
    getStatus { mkRouter configs with activeRequests := act, rateLimitTracker := rt }
      = ((sortByKey (fun c => c.priority) configs).filter goodCfg).map
          (fun c => { name := c.name, active := (mapGet c.name act).getD 0,
                      available := true }) := by
  unfold getStatus
  have hprovs : ({ mkRouter configs with activeRequests := act, rateLimitTracker := rt }
        : RouterState).providers
      = ((sortByKey (fun c => c.priority) configs).filter goodCfg).map (fun c => c.name) :=
    mkRouter_providers configs hnodup
  rw [hprovs, List.map_map]
  rfl

/-- Witness for the amended C6 with a disabled backend and a live active
counter. -/
theorem c6_status_snapshot_witness :
    (([openAICfg, disabledAnthropicCfg].map (fun c => c.name)).Nodup)
    ∧ getStatus { mkRouter [openAICfg, disabledAnthropicCfg] with activeRequests := [("openai", 3)], rateLimitTracker := [] }
        = ((sortByKey (fun c => c.priority) [openAICfg, disabledAnthropicCfg]).filter goodCfg).map
            (fun c => { name := c.name, active := (mapGet c.name [("openai", 3)]).getD 0,
                        available := true }) :=
  ⟨by decide,
    c6_status_snapshot [openAICfg, disabledAnthropicCfg] [("openai", 3)] [] (by decide)⟩

/-- C7: per-backend `activeCount` is never negative.  `enter` increments,
`leave` decrements clamped at zero, and the nonnegativity invariant is
preserved by every router operation (selection, invoke, stream) and holds
for a freshly constructed router. -/
theorem c7_active_count_nonneg
    (s : RouterState) (req : LLMRequest) (now : Int) (name : String)
    (configs : List ProviderConfig) (adapter : String → AdapterOutcome)
    (chunks : List StreamChunk) (how : StreamConsumption)
    (hs : routerNonneg s) :
    routerNonneg (incrementActiveRequests s name)
    ∧ routerNonneg (decrementActiveRequests s name)
    ∧ routerNonneg (selectProvider s req now).2
    ∧ routerNonneg (invoke s req now adapter).state
    ∧ routerNonneg (streamRun s req now chunks how).state
    ∧ routerNonneg (mkRouter configs) := by
  have hsel : routerNonneg (selectProvider s req now).2 := by
    obtain ⟨_, _, hact⟩ := selectLoop_frame now (selectionOrder s) s
    exact routerNonneg_of_active_eq hact hs
  have hinv : routerNonneg (invoke s req now adapter).state := by
    rcases hsp : selectProvider s req now with ⟨o, s1⟩
    have hs1 : routerNonneg s1 := by
      have h2 := hsel
      rw [hsp] at h2
      exact h2
    cases o with
    | none =>
      have heq : (invoke s req now adapter).state = s1 := by
        unfold invoke
        rw [hsp]
      rw [heq]
      exact hs1
    | some nm =>
      have heq : (invoke s req now adapter).state
          = decrementActiveRequests (incrementActiveRequests s1 nm) nm := by
        unfold invoke
        rw [hsp]
        dsimp only
        cases h2 : adapter nm <;> rfl
      rw [heq]
      exact dec_nonneg (inc_nonneg hs1)
  have hstr : routerNonneg (streamRun s req now chunks how).state := by
    rcases hsp : selectProvider s req now with ⟨o, s1⟩
    have hs1 : routerNonneg s1 := by
      have h2 := hsel
      rw [hsp] at h2
      exact h2
    cases o with
    | none =>
      have heq : (streamRun s req now chunks how).state = s1 := by
        unfold streamRun
        rw [hsp]
      rw [heq]
      exact hs1
    | some nm =>
      have heq : (streamRun s req now chunks how).state
          = decrementActiveRequests (incrementActiveRequests s1 nm) nm := by
        unfold streamRun
        rw [hsp]
        dsimp only
        cases how <;> rfl
      rw [heq]
      exact dec_nonneg (inc_nonneg hs1)
  exact ⟨inc_nonneg hs, dec_nonneg hs, hsel, hinv, hstr, mkRouter_nonneg configs⟩

/-- Witness for C7 at a concrete state. -/
theorem c7_active_count_nonneg_witness :
    routerNonneg emptyRouter
    ∧ routerNonneg (incrementActiveRequests emptyRouter "openai")
    ∧ routerNonneg (decrementActiveRequests emptyRouter "openai")
    ∧ routerNonneg (mkRouter [openAICfg]) := by
  have h0 : routerNonneg emptyRouter := fun _ => le_refl 0
  have h := c7_active_count_nonneg emptyRouter sampleRequest 0 "openai" [openAICfg]
    failingAdapter [] StreamConsumption.toCompletion h0
  exact ⟨h0, h.1, h.2.1, h.2.2.2.2.2⟩

/-- C8: `getCost` is `(promptTokens/1000)*inputRate +
(completionTokens/1000)*outputRate` with the rates fixed at adapter
construction, for all natural token counts; at the OpenAI rates
(input 0.01, output 0.03), `getCost 1000 1000 = 0.04`.  (Arithmetic is
modelled exactly over the rationals; the concrete values are exactly
representable.) -/
theorem c8_get_cost_formula (rates : CostRates) (p c : Nat) :
    getCost rates p c = (p : ℚ) / 1000 * rates.input + (c : ℚ) / 1000 * rates.output
    ∧ getCost openAICostPer1k 1000 1000 = 4 / 100 := by
  constructor
  · rfl
  · norm_num [getCost, openAICostPer1k]

/-- C9: during one selection pass, every examined backend that is
available and passes the rate-limit check gets the current instant
recorded into its window — including backends then skipped by the
capacity check and backends examined in a pass where selection fails
(when selection returns none, every candidate was examined); an examined
backend that is not the selected one failed the overall admission check
even if its rate slot was consumed. -/
theorem c9_rate_slot_consumed_by_examined
    (s : RouterState) (req : LLMRequest) (now : Int)
    (hnodup : s.providers.Nodup) :
    (∀ n ∈ examinedNames s now (selectionOrder s),
        isProviderAvailable s n = true → rateOK s now n = true →
        mapGet n (selectProvider s req now).2.rateLimitTracker
          = some (recentOf s now n ++ [now]))
    ∧ ((selectProvider s req now).1 = none →
        examinedNames s now (selectionOrder s) = selectionOrder s)
    ∧ (∀ n ∈ examinedNames s now (selectionOrder s),
        (selectProvider s req now).1 ≠ some n → passesChecks s now n = false) := by
  have hnodup2 : (selectionOrder s).Nodup :=
    ((sortByKey_perm (selKey s) s.providers).nodup_iff).mpr hnodup
  obtain ⟨h1, _, _, _, _, h6⟩ := selectLoop_spec now (selectionOrder s) s hnodup2
  refine ⟨?_, ?_, ?_⟩
  · intro n hn hav hr
    have hval := h6 n hn
    rw [if_pos (by simp [hav, hr])] at hval
    exact hval
  · intro hnone
    apply examined_of_find_none
    rw [← h1]
    exact hnone
  · intro n hn hne
    cases hq : passesChecks s now n with
    | false => rfl
    | true =>
      exfalso
      apply hne
      have hfind := find_some_of_mem_examined s now (selectionOrder s) n hn hq
      show (selectProvider s req now).1 = some n
      unfold selectProvider
      rw [h1]
      exact hfind

/-- Witness for C9: openai passes the rate check but is at capacity, so
anthropic is selected — yet openai's window has consumed a slot. -/
theorem c9_rate_slot_consumed_witness :
    routerOpenAIAtCapacity.providers.Nodup
    ∧ "openai" ∈ examinedNames routerOpenAIAtCapacity 0
        (selectionOrder routerOpenAIAtCapacity)
    ∧ isProviderAvailable routerOpenAIAtCapacity "openai" = true
    ∧ rateOK routerOpenAIAtCapacity 0 "openai" = true
    ∧ (selectProvider routerOpenAIAtCapacity sampleRequest 0).1 = some "anthropic"
    ∧ mapGet "openai"
        (selectProvider routerOpenAIAtCapacity sampleRequest 0).2.rateLimitTracker
      = some (recentOf routerOpenAIAtCapacity 0 "openai" ++ [0]) := by
  refine ⟨by decide, by decide, by decide, by decide, by decide, ?_⟩
  exact (c9_rate_slot_consumed_by_examined routerOpenAIAtCapacity sampleRequest 0
    (by decide)).1 "openai" (by decide) (by decide) (by decide)
